import Mathlib

set_option maxHeartbeats 1000000

namespace BuildingsPipeline

/-- Cell values of a table: a string, a natural number (the synthetic
identifiers `id_1`/`id_2` assigned with `np.arange`), or null (pandas NaN;
`getVal` also returns it when a row lacks a column, matching the NaN fill that
pandas concatenation applies to missing columns). -/
inductive Val where
  | vStr : String → Val
  | vNat : Nat → Val
  | vNull : Val
deriving DecidableEq, Repr

open Val

/-- A row is an association list from column names to cell values. -/
abbrev Row := List (String × Val)

/-- A table mirrors a pandas DataFrame: an ordered column list plus rows. -/
structure Table where
  cols : List String
  rows : List Row
deriving DecidableEq, Repr

/-- Value of column `c` in row `r`; a missing column reads as NaN. -/
def getVal : Row → String → Val
  | [], _ => vNull
  | (c', v') :: rest, c => if c' = c then v' else getVal rest c

/-- Column assignment `df[c] = v` on one row: replace the first binding of `c`,
or append a new binding when the row has none. -/
def setVal : Row → String → Val → Row
  | [], c, v => [(c, v)]
  | (c', v') :: rest, c, v =>
      if c' = c then (c, v) :: rest else (c', v') :: setVal rest c v

/-- Whether the association list binds column `c`. -/
def hasCol : Row → String → Bool
  | [], _ => false
  | (c', _) :: rest, c => c' = c || hasCol rest c

theorem getVal_setVal_self (r : Row) (c : String) (v : Val) :
    getVal (setVal r c v) c = v := by
  induction r with
  | nil => simp [setVal, getVal]
  | cons p rest ih =>
      obtain ⟨a, b⟩ := p
      by_cases h : a = c
      · simp [setVal, h, getVal]
      · simp [setVal, h, getVal, ih]

theorem getVal_setVal_ne (r : Row) (c c' : String) (v : Val) (h : c' ≠ c) :
    getVal (setVal r c v) c' = getVal r c' := by
  induction r with
  | nil =>
      have h2 : ¬ (c = c') := fun hh => h hh.symm
      simp [setVal, getVal, h2]
  | cons p rest ih =>
      obtain ⟨a, b⟩ := p
      by_cases hac : a = c
      · have h1 : ¬ (a = c') := fun hh => h (hh ▸ hac)
        have h2 : ¬ (c = c') := fun hh => h hh.symm
        simp [setVal, hac, getVal, h1, h2]
      · by_cases hac' : a = c'
        · simp [setVal, hac, getVal, hac', h]
        · simp [setVal, hac, getVal, hac', ih]

theorem getVal_append_of_hasCol (r₁ r₂ : Row) (c : String)
    (h : hasCol r₁ c = true) : getVal (r₁ ++ r₂) c = getVal r₁ c := by
  induction r₁ with
  | nil => simp [hasCol] at h
  | cons p rest ih =>
      obtain ⟨a, b⟩ := p
      by_cases hp : a = c
      · simp [getVal, hp]
      · simp only [hasCol, Bool.or_eq_true, decide_eq_true_eq] at h
        rcases h with h | h
        · exact absurd h hp
        · simp [getVal, hp, ih h]

theorem getVal_append_of_not_hasCol (r₁ r₂ : Row) (c : String)
    (h : hasCol r₁ c = false) : getVal (r₁ ++ r₂) c = getVal r₂ c := by
  induction r₁ with
  | nil => simp [getVal]
  | cons p rest ih =>
      obtain ⟨a, b⟩ := p
      simp only [hasCol, Bool.or_eq_false_iff, decide_eq_false_iff_not] at h
      simp [getVal, h.1, ih h.2]

/-- Lower-casing used by `.str.lower()`, restricted to the Latin and Cyrillic
letters the addresses are made of (Python lower-cases all of Unicode; only
these ranges occur in the repository's data and claims). -/
def lowerChar (c : Char) : Char :=
  if 'A' ≤ c ∧ c ≤ 'Z' then Char.ofNat (c.toNat + 32)
  else if 'А' ≤ c ∧ c ≤ 'Я' then Char.ofNat (c.toNat + 32)
  else if c = 'Ё' then 'ё'
  else c

/-- Upper-casing used by `.str.upper()`, restricted the same way. -/
def upperChar (c : Char) : Char :=
  if 'a' ≤ c ∧ c ≤ 'z' then Char.ofNat (c.toNat - 32)
  else if 'а' ≤ c ∧ c ≤ 'я' then Char.ofNat (c.toNat - 32)
  else if c = 'ё' then 'Ё'
  else c

/-- Leading- and trailing-whitespace strip (`str.strip` / `.str.strip()`). -/
def trimChars (cs : List Char) : List Char :=
  ((cs.dropWhile Char.isWhitespace).reverse.dropWhile Char.isWhitespace).reverse

/-- Characters kept by the cleaning regex replace of `merge_address_datasets`:
its character class `[а-яa-z0-9]` keeps lower-case Cyrillic а..я (a range that
excludes ё), lower-case Latin a..z and the digits; everything else is deleted. -/
def isKeptChar (c : Char) : Bool :=
  ('а' ≤ c && c ≤ 'я') || ('a' ≤ c && c ≤ 'z') || ('0' ≤ c && c ≤ '9')

/-- String form of the comparison-key normalization: lower-case, strip, then
delete every character outside `[а-яa-z0-9]`. -/
def normStr (s : String) : String :=
  String.mk ((trimChars (s.toList.map lowerChar)).filter isKeptChar)

/-- The per-column cleaning of `merge_address_datasets`
(`fillna('').str.lower().str.strip().str.replace(r'[^а-яa-z0-9]','')`): NaN is
first replaced by the empty string; a non-string cell goes to NaN because the
pandas `.str` accessor yields NaN on non-strings. -/
def cleanVal : Val → Val
  | vNull => vStr (normStr "")
  | vStr s => vStr (normStr s)
  | vNat _ => vNull

/-- String rendering of a cell (`str(x)` / f-string interpolation); NaN renders
as "nan". -/
def renderVal : Val → String
  | vStr s => s
  | vNat n => toString n
  | vNull => "nan"

/-- Python truthiness of a cell: the empty string and 0 are falsy; NaN is
truthy. -/
def truthyVal : Val → Bool
  | vStr s => !(s = "")
  | vNat n => !(n = 0)
  | vNull => true

/-- Matching of `startsSub needle hay`: `hay` starts with `needle`. -/
def startsSub (needle hay : List Char) : Bool :=
  match needle, hay with
  | [], _ => true
  | _ :: _, [] => false
  | n :: ns, h :: hs => n = h && startsSub ns hs

/-- The `str.endswith(suf)` test, on the character lists. -/
def endsWithSuf (s suf : String) : Bool :=
  startsSub suf.toList.reverse s.toList.reverse

/-- Column list after `df[c] = ...`: pandas keeps the position of an existing
column and appends a new one. -/
def addColName (cols : List String) (c : String) : List String :=
  if cols.contains c then cols else cols ++ [c]

/-- Whole-column assignment `df[c] = f(row)` computed from each row. -/
def setColF (t : Table) (c : String) (f : Row → Val) : Table :=
  { cols := addColName t.cols c, rows := t.rows.map (fun r => setVal r c (f r)) }

/-- Rows numbered 0,1,2,... into column `idCol` (`df[idCol] = np.arange(len(df))`). -/
def numberRows (idCol : String) : Nat → List Row → List Row
  | _, [] => []
  | i, r :: rs => setVal r idCol (vNat i) :: numberRows idCol (i + 1) rs

def addIdCol (t : Table) (idCol : String) : Table :=
  { cols := addColName t.cols idCol, rows := numberRows idCol 0 t.rows }

/-- The four address columns the cascade works with. -/
def theFour : List String := ["Улица", "Дом", "Корпус", "Литера"]

def cleanName (c : String) : String := c ++ "_clean"

def cleanFour : List String := theFour.map cleanName

/-- One iteration of the cleaned-column loop: when `col` exists, add
`col_clean` holding the normalized comparison key. -/
def addCleanCol (t : Table) (col : String) : Table :=
  if t.cols.contains col then
    setColF t (cleanName col) (fun r => cleanVal (getVal r col))
  else t

def withClean (t : Table) : Table :=
  addCleanCol (addCleanCol (addCleanCol (addCleanCol t "Улица") "Дом") "Корпус") "Литера"

/-- df1 after `id_1` numbering and the cleaned comparison columns. -/
def df1p (df1 : Table) : Table := withClean (addIdCol df1 "id_1")

/-- df2 after `id_2` numbering and the cleaned comparison columns. -/
def df2p (df2 : Table) : Table := withClean (addIdCol df2 "id_2")

/-- Key agreement of two rows on the join columns. -/
def keyAgree (l r : Row) (onCols : List String) : Bool :=
  onCols.all (fun c => getVal l c == getVal r c)

/-- The inner equi-join of `pd.merge(..., how='inner')` as the list of matching
row pairs (every cross pair within an equal-key group). -/
def joinOn (ls rs : List Row) (onCols : List String) : List (Row × Row) :=
  match ls with
  | [] => []
  | l :: ls' =>
      (rs.filterMap (fun r => if keyAgree l r onCols then some (l, r) else none))
      ++ joinOn ls' rs onCols

/-- Column naming of `pd.merge` with suffixes ('_citywalls', '_opendata'): a
join column keeps its name, a column also present on the other side gets the
suffix, a one-sided column keeps its name. -/
def sufName (c : String) (onCols otherCols : List String) (suf : String) : String :=
  if onCols.contains c then c
  else if otherCols.contains c then c ++ suf
  else c

/-- One merged row of `pd.merge(left, right, on, suffixes=('_citywalls','_opendata'))`. -/
def mergedRow (leftCols rightCols onCols : List String) (l r : Row) : Row :=
  (leftCols.map (fun c => (sufName c onCols rightCols "_citywalls", getVal l c)))
  ++ ((rightCols.filter (fun c => !(onCols.contains c))).map
      (fun c => (sufName c onCols leftCols "_opendata", getVal r c)))

/-- Column list of the merged frame. -/
def mergedCols (leftCols rightCols onCols : List String) : List String :=
  (leftCols.map (fun c => sufName c onCols rightCols "_citywalls"))
  ++ ((rightCols.filter (fun c => !(onCols.contains c))).map
      (fun c => sufName c onCols leftCols "_opendata"))

/-- Result of one pass: the merged frame (with its `merge_type` tag column) and
the id sets of the matched left and right records, read off the merged frame
exactly as `set(merged['id_1'])`, `set(merged['id_2'])` are. -/
structure MergeStep where
  tbl : Table
  ids1 : List Val
  ids2 : List Val
deriving DecidableEq, Repr

def merge_and_track (left right : Table) (onCols : List String) (mergeName : String) :
    MergeStep :=
  let rows := (joinOn left.rows right.rows onCols).map
    (fun p => setVal (mergedRow left.cols right.cols onCols p.1 p.2) "merge_type" (vStr mergeName))
  { tbl := { cols := addColName (mergedCols left.cols right.cols onCols) "merge_type",
             rows := rows },
    ids1 := rows.map (fun r => getVal r "id_1"),
    ids2 := rows.map (fun r => getVal r "id_2") }

/-- `df[~df[idCol].isin(ids)]`. -/
def filterNotIn (t : Table) (idCol : String) (ids : List Val) : Table :=
  { cols := t.cols, rows := t.rows.filter (fun r => !(ids.contains (getVal r idCol))) }

/-- Join columns of pass 1: whichever of the four cleaned columns exist in both
frames. -/
def pass1Cols (df1 df2 : Table) : List String :=
  cleanFour.filter (fun c => (df1p df1).cols.contains c && (df2p df2).cols.contains c)

/-- Join columns of pass 2: whichever of street/house cleaned columns exist in
both frames. -/
def pass2Cols (df1 df2 : Table) : List String :=
  (["Улица", "Дом"].map cleanName).filter
    (fun c => (df1p df1).cols.contains c && (df2p df2).cols.contains c)

def pass3Cols (df1 df2 : Table) : List String :=
  (["Улица", "Дом", "Корпус"].map cleanName).filter
    (fun c => (df1p df1).cols.contains c && (df2p df2).cols.contains c)

def pass4Cols (df1 df2 : Table) : List String :=
  (["Улица", "Дом", "Литера"].map cleanName).filter
    (fun c => (df1p df1).cols.contains c && (df2p df2).cols.contains c)

/-- Pass 1 ('по_всем_полям'); `none` when skipped (`len(merge_cols) > 0` fails). -/
def pass1 (df1 df2 : Table) : Option MergeStep :=
  if pass1Cols df1 df2 = [] then none
  else some (merge_and_track (df1p df1) (df2p df2) (pass1Cols df1 df2) "по_всем_полям")

def rem1After1 (df1 df2 : Table) : Table :=
  match pass1 df1 df2 with
  | none => df1p df1
  | some st => filterNotIn (df1p df1) "id_1" st.ids1

def rem2After1 (df1 df2 : Table) : Table :=
  match pass1 df1 df2 with
  | none => df2p df2
  | some st => filterNotIn (df2p df2) "id_2" st.ids2

/-- Pass 2 ('по_улице_и_дому') over the records left by pass 1. -/
def pass2 (df1 df2 : Table) : Option MergeStep :=
  if pass2Cols df1 df2 = [] then none
  else some (merge_and_track (rem1After1 df1 df2) (rem2After1 df1 df2)
    (pass2Cols df1 df2) "по_улице_и_дому")

def rem1After2 (df1 df2 : Table) : Table :=
  match pass2 df1 df2 with
  | none => rem1After1 df1 df2
  | some st => filterNotIn (rem1After1 df1 df2) "id_1" st.ids1

def rem2After2 (df1 df2 : Table) : Table :=
  match pass2 df1 df2 with
  | none => rem2After1 df1 df2
  | some st => filterNotIn (rem2After1 df1 df2) "id_2" st.ids2

/-- Pass 3 ('по_улице_дому_корпусу'); runs only when all three of its cleaned
columns exist in both frames (`len(...) > 2`). -/
def pass3 (df1 df2 : Table) : Option MergeStep :=
  if 2 < (pass3Cols df1 df2).length then
    some (merge_and_track (rem1After2 df1 df2) (rem2After2 df1 df2)
      (pass3Cols df1 df2) "по_улице_дому_корпусу")
  else none

def rem1After3 (df1 df2 : Table) : Table :=
  match pass3 df1 df2 with
  | none => rem1After2 df1 df2
  | some st => filterNotIn (rem1After2 df1 df2) "id_1" st.ids1

def rem2After3 (df1 df2 : Table) : Table :=
  match pass3 df1 df2 with
  | none => rem2After2 df1 df2
  | some st => filterNotIn (rem2After2 df1 df2) "id_2" st.ids2

/-- Pass 4 ('по_улице_дому_литере'); runs only when all three of its cleaned
columns exist in both frames. -/
def pass4 (df1 df2 : Table) : Option MergeStep :=
  if 2 < (pass4Cols df1 df2).length then
    some (merge_and_track (rem1After3 df1 df2) (rem2After3 df1 df2)
      (pass4Cols df1 df2) "по_улице_дому_литере")
  else none

def rem1After4 (df1 df2 : Table) : Table :=
  match pass4 df1 df2 with
  | none => rem1After3 df1 df2
  | some st => filterNotIn (rem1After3 df1 df2) "id_1" st.ids1

def rem2After4 (df1 df2 : Table) : Table :=
  match pass4 df1 df2 with
  | none => rem2After3 df1 df2
  | some st => filterNotIn (rem2After3 df1 df2) "id_2" st.ids2

/-- Renaming rule of `prepare_unmerged_df`: the id column, the cleaned columns
and columns already ending in a source suffix keep their names; every other
column gets the per-source suffix. -/
def renField (idCol suf : String) (c : String) : String :=
  if c = idCol || cleanFour.contains c
      || endsWithSuf c "_citywalls" || endsWithSuf c "_opendata" then c
  else c ++ suf

def prepare_unmerged_df (df other : Table) (idCol srcName : String) : Table :=
  if df.rows.isEmpty || df.cols.isEmpty then { cols := [], rows := [] }
  else
    let suf := if srcName = "только_citywalls" then "_citywalls" else "_opendata"
    let otherSuf := if suf = "_citywalls" then "_opendata" else "_citywalls"
    let t1 : Table :=
      { cols := df.cols.map (renField idCol suf),
        rows := df.rows.map (fun r => r.map (fun p => (renField idCol suf p.1, p.2))) }
    let t2 := other.cols.foldl
      (fun t c =>
        if endsWithSuf c otherSuf && !(t.cols.contains c) then setColF t c (fun _ => vNull)
        else t) t1
    setColF t2 "merge_type" (fun _ => vStr srcName)

def df1_only (df1 df2 : Table) : Table :=
  prepare_unmerged_df (rem1After4 df1 df2) (df2p df2) "id_1" "только_citywalls"

def df2_only (df1 df2 : Table) : Table :=
  prepare_unmerged_df (rem2After4 df1 df2) (df1p df1) "id_2" "только_opendata"

def optTbl : Option MergeStep → List Table
  | none => []
  | some st => [st.tbl]

def nonEmptyTbl (t : Table) : List Table :=
  if t.rows.isEmpty || t.cols.isEmpty then [] else [t]

/-- The list `merge_results`: a pass frame is appended exactly when the pass
executed (even when it matched nothing), a residual frame only when non-empty. -/
def merge_results (df1 df2 : Table) : List Table :=
  optTbl (pass1 df1 df2) ++ optTbl (pass2 df1 df2) ++ optTbl (pass3 df1 df2)
  ++ optTbl (pass4 df1 df2) ++ nonEmptyTbl (df1_only df1 df2) ++ nonEmptyTbl (df2_only df1 df2)

def unionCols (a b : List String) : List String :=
  a ++ b.filter (fun c => !(a.contains c))

/-- `pd.concat(ts, ignore_index=True)`: the union of the columns, rows stacked;
a row reads NaN in a column its frame lacked. -/
def concatTables (ts : List Table) : Table :=
  { cols := ts.foldl (fun acc t => unionCols acc t.cols) [],
    rows := ts.foldl (fun acc t => acc ++ t.rows) [] }

/-- One iteration of the coalescing loop:
`final[col] = final[col_citywalls].fillna(final[col_opendata])` when both
suffixed columns exist, else copy whichever exists. `fillna` falls back only on
NaN — an empty string is kept. -/
def coalesceCol (t : Table) (col : String) : Table :=
  let cw := col ++ "_citywalls"
  let od := col ++ "_opendata"
  if t.cols.contains cw && t.cols.contains od then
    setColF t col (fun r => if getVal r cw = vNull then getVal r od else getVal r cw)
  else if t.cols.contains cw then setColF t col (fun r => getVal r cw)
  else if t.cols.contains od then setColF t col (fun r => getVal r od)
  else t

def coalesceAll (t : Table) : Table :=
  coalesceCol (coalesceCol (coalesceCol (coalesceCol t "Улица") "Дом") "Корпус") "Литера"

/-- `row.get(c, '')` on a row of frame `t`. -/
def rowGetD (t : Table) (r : Row) (c : String) : Val :=
  if t.cols.contains c then getVal r c else vStr ""

/-- The `normalized_address` f-string
"{Улица}, {Дом}[ лит.{Литера}][ корп.{Корпус}]" followed by .strip(); a
qualifier clause is included when its cell is truthy. (When that cell is NaN
the source raises a TypeError on the string concatenation; the model renders
"nan" instead, a corner no input of this pipeline reaches without already
having produced a malformed frame.) -/
def normalized_address_of (t : Table) (r : Row) : String :=
  String.mk (trimChars
    (renderVal (rowGetD t r "Улица") ++ ", " ++ renderVal (rowGetD t r "Дом")
      ++ (if truthyVal (rowGetD t r "Литера") then " лит." ++ renderVal (rowGetD t r "Литера") else "")
      ++ (if truthyVal (rowGetD t r "Корпус") then " корп." ++ renderVal (rowGetD t r "Корпус") else "")).toList)

def withNormalizedAddress (t : Table) : Table :=
  setColF t "normalized_address" (fun r => vStr (normalized_address_of t r))

def colsToDrop : List String :=
  ["id_1", "id_2", "Улица_clean", "Дом_clean", "Корпус_clean", "Литера_clean"]

def dropTheCols (t : Table) (cs : List String) : Table :=
  { cols := t.cols.filter (fun c => !(cs.contains c)),
    rows := t.rows.map (fun r => r.filter (fun p => !(cs.contains p.1))) }

/-- The whole of `merge_address_datasets`: the four passes, the residual
frames, concatenation, coalescing, the display address and the drop of the
service columns. -/
def merge_address_datasets (df1 df2 : Table) : Table :=
  if merge_results df1 df2 = [] then { cols := [], rows := [] }
  else
    dropTheCols (withNormalizedAddress (coalesceAll (concatTables (merge_results df1 df2))))
      colsToDrop

structure MergeStats where
  total : Nat
  by_all : Nat
  by_street_house : Nat
  by_corpus : Nat
  by_liter : Nat
  citywalls_only : Nat
  opendata_only : Nat
deriving DecidableEq, Repr

def stepIds1 : Option MergeStep → List Val
  | none => []
  | some st => st.ids1

/-- The statistics block of `merge_address_datasets` (`len` of a Python set is
the number of distinct elements, hence the dedup). -/
def merge_stats (df1 df2 : Table) : MergeStats :=
  { total := (merge_address_datasets df1 df2).rows.length,
    by_all := (stepIds1 (pass1 df1 df2)).dedup.length,
    by_street_house := (stepIds1 (pass2 df1 df2)).dedup.length,
    by_corpus := (stepIds1 (pass3 df1 df2)).dedup.length,
    by_liter := (stepIds1 (pass4 df1 df2)).dedup.length,
    citywalls_only := (df1_only df1 df2).rows.length,
    opendata_only := (df2_only df1 df2).rows.length }

def isDigitHead : List Char → Bool
  | [] => false
  | c :: _ => c.isDigit

/-- The split `re.split(r',\s*|\s+(?=\d+)', address, 1)`: scan for the first
comma (consuming it and any following whitespace) or whitespace run whose first
following character is a digit (consuming the run); no split point means the
whole string is the single part. -/
def splitAddr : List Char → List Char × Option (List Char)
  | [] => ([], none)
  | c :: rest =>
      if c = ',' then ([], some (rest.dropWhile Char.isWhitespace))
      else if c.isWhitespace && isDigitHead ((c :: rest).dropWhile Char.isWhitespace) then
        ([], some ((c :: rest).dropWhile Char.isWhitespace))
      else
        let p := splitAddr rest
        (c :: p.1, p.2)

/-- Literal-text matcher: `some rest` when `cs` starts with `lit`. -/
def dropLit (lit : List Char) (cs : List Char) : Option (List Char) :=
  match lit, cs with
  | [], rest => some rest
  | _ :: _, [] => none
  | l :: ls, c :: cs' => if c = l then dropLit ls cs' else none

/-- Case-insensitive literal-text matcher (`lit` given in lower case). -/
def dropLitCI (lit : List Char) (cs : List Char) : Option (List Char) :=
  match lit, cs with
  | [], rest => some rest
  | _ :: _, [] => none
  | l :: ls, c :: cs' => if lowerChar c = l then dropLitCI ls cs' else none

/-- Word characters of the house-number pattern `\w` for the alphabets in
play: digits, underscore, Latin and Cyrillic letters. -/
def isWordChar (c : Char) : Bool :=
  c.isDigit || c = '_' || ('a' ≤ c && c ≤ 'z') || ('A' ≤ c && c ≤ 'Z')
    || ('а' ≤ c && c ≤ 'я') || ('А' ≤ c && c ≤ 'Я') || c = 'ё' || c = 'Ё'

/-- The captured group `(\d+[\w\/\-]*)`: requires a leading digit, then the
longest run of word characters, slashes and hyphens. -/
def takeHouseToken (cs : List Char) : Option (List Char) :=
  if isDigitHead cs then
    some (cs.takeWhile (fun c => isWordChar c || c = '/' || c = '-'))
  else none

/-- The house-number search `re.search(r'^(?:дом\s*|д\.\s*)?(\d+[\w\/\-]*)', hp)`:
the optional marker alternatives are tried in regex order with backtracking,
the greedy `\s*` deterministically takes the whole whitespace run. -/
def houseMatch (cs : List Char) : Option (List Char) :=
  (match dropLit "дом".toList cs with
   | some rest => takeHouseToken (rest.dropWhile Char.isWhitespace)
   | none => none)
  <|> (match dropLit "д.".toList cs with
   | some rest => takeHouseToken (rest.dropWhile Char.isWhitespace)
   | none => none)
  <|> takeHouseToken cs

/-- The capture class `[а-яА-Я\d]` of the liter/corpus patterns (no ё/Ё: the
ranges exclude it). -/
def isLiterClass (c : Char) : Bool :=
  ('а' ≤ c && c ≤ 'я') || ('А' ≤ c && c ≤ 'Я') || c.isDigit

def takeClassToken (cs : List Char) : Option (List Char) :=
  match cs with
  | [] => none
  | c :: _ => if isLiterClass c then some (cs.takeWhile isLiterClass) else none

/-- The `\s*([а-яА-Я\d]+)` tail shared by the liter and corpus patterns. -/
def tailCapture (rest : List Char) : Option (List Char) :=
  takeClassToken (rest.dropWhile Char.isWhitespace)

/-- One anchored attempt of `(?:литера?|лит\.?|л\.?)\s*([а-яА-Я\d]+)`:
alternatives and the greedy optional characters tried in regex order with
backtracking. -/
def literAt (cs : List Char) : Option (List Char) :=
  (match dropLit "литера".toList cs with | some rest => tailCapture rest | none => none)
  <|> (match dropLit "литер".toList cs with | some rest => tailCapture rest | none => none)
  <|> (match dropLit "лит.".toList cs with | some rest => tailCapture rest | none => none)
  <|> (match dropLit "лит".toList cs with | some rest => tailCapture rest | none => none)
  <|> (match dropLit "л.".toList cs with | some rest => tailCapture rest | none => none)
  <|> (match dropLit "л".toList cs with | some rest => tailCapture rest | none => none)

/-- One anchored attempt of `(?:корпус|корп\.?|к\.?)\s*([а-яА-Я\d]+)`. -/
def corpusAt (cs : List Char) : Option (List Char) :=
  (match dropLit "корпус".toList cs with | some rest => tailCapture rest | none => none)
  <|> (match dropLit "корп.".toList cs with | some rest => tailCapture rest | none => none)
  <|> (match dropLit "корп".toList cs with | some rest => tailCapture rest | none => none)
  <|> (match dropLit "к.".toList cs with | some rest => tailCapture rest | none => none)
  <|> (match dropLit "к".toList cs with | some rest => tailCapture rest | none => none)

/-- Unanchored `re.search`: the leftmost position where the anchored attempt
succeeds. -/
def searchFrom (f : List Char → Option (List Char)) : List Char → Option (List Char)
  | [] => f []
  | c :: rest => f (c :: rest) <|> searchFrom f rest

/-- The third alternative `г\s+` of the city-prefix regex: the letter г
followed by at least one whitespace, the greedy run consumed. -/
def cityAlt3 (cs : List Char) : Option (List Char) :=
  match dropLitCI "г".toList cs with
  | some (c :: rest) =>
      if c.isWhitespace then some ((c :: rest).dropWhile Char.isWhitespace) else none
  | _ => none

/-- The fifth alternative `\s*спб\s*,\s*` of the city-prefix regex. -/
def cityAlt5 (cs : List Char) : Option (List Char) :=
  match dropLitCI "спб".toList (cs.dropWhile Char.isWhitespace) with
  | some rest =>
      match rest.dropWhile Char.isWhitespace with
      | ',' :: r2 => some (r2.dropWhile Char.isWhitespace)
      | _ => none
  | none => none

/-- The city-prefix removal of the opendata variant,
`re.sub(r'^(г\.|город|г\s+|санкт-петербург,\s*|\s*спб\s*,\s*|нп в составе спб\s*)',
'', address, flags=re.IGNORECASE)`: alternatives in regex order, matched
case-insensitively at the start of the string. -/
def matchCityPref (cs : List Char) : Option (List Char) :=
  dropLitCI "г.".toList cs
  <|> dropLitCI "город".toList cs
  <|> cityAlt3 cs
  <|> ((dropLitCI "санкт-петербург,".toList cs).map (fun r => r.dropWhile Char.isWhitespace))
  <|> cityAlt5 cs
  <|> ((dropLitCI "нп в составе спб".toList cs).map (fun r => r.dropWhile Char.isWhitespace))

def stripCityPref (cs : List Char) : List Char :=
  match matchCityPref cs with
  | some rest => rest
  | none => cs

/-- The result dict of `extract_address_components` (keys Улица, Дом, Корпус,
Литера). -/
structure AddressComponents where
  street : String
  house : String
  corpus : String
  liter : String
deriving DecidableEq, Repr

def emptyComponents : AddressComponents :=
  { street := "", house := "", corpus := "", liter := "" }

/-- Body of `extract_address_components` after `str(address).strip()` (and for
the opendata source after the city-prefix removal): the split into street and
house part, the anchored house-number extraction and the independent,
order-free liter and corpus searches inside the house part. -/
def extractCore (stripped : List Char) : AddressComponents :=
  match splitAddr stripped with
  | (street0, none) =>
      { street := String.mk (trimChars street0), house := "", corpus := "", liter := "" }
  | (street0, some hp0) =>
      { street := String.mk (trimChars street0),
        house := match houseMatch (trimChars hp0) with
                 | some h => String.mk (trimChars h)
                 | none => "",
        corpus := match searchFrom corpusAt (trimChars hp0) with
                  | some k => String.mk (trimChars k)
                  | none => "",
        liter := match searchFrom literAt (trimChars hp0) with
                 | some l => String.mk (trimChars l)
                 | none => "" }

/-- `extract_address_components`: NaN and falsy values (empty string, 0) give
all-empty components; `useCityStrip` selects the opendata variant that first
removes a known city prefix. -/
def extract_address_components (useCityStrip : Bool) (address : Val) : AddressComponents :=
  match address with
  | vNull => emptyComponents
  | vStr s =>
      if s = "" then emptyComponents
      else
        let a0 := trimChars s.toList
        let a1 := if useCityStrip then trimChars (stripCityPref a0) else a0
        extractCore a1
  | vNat n =>
      if n = 0 then emptyComponents
      else
        let a0 := trimChars (toString n).toList
        let a1 := if useCityStrip then trimChars (stripCityPref a0) else a0
        extractCore a1

/-- Substring containment, the `'улица' in col.lower()` test. -/
def containsSub (needle : List Char) : List Char → Bool
  | [] => needle.isEmpty
  | h :: hs => startsSub needle (h :: hs) || containsSub needle hs

/-- `next((col for col in columns if needle in col.lower()), None)`. -/
def sniffCol (t : Table) (needle : String) : Option String :=
  t.cols.find? (fun c => containsSub needle.toList (c.toList.map lowerChar))

/-- The sniff followed by the explicit canonical-name fallback
(`if not street_col and 'Улица' in columns: street_col = 'Улица'`). -/
def pickCol (t : Table) (needle canonical : String) : Option String :=
  match sniffCol t needle with
  | some c => some c
  | none => if t.cols.contains canonical then some canonical else none

/-- `if found_col and found_col != canonical: df[canonical] = df[found_col]`. -/
def applyStd (t : Table) (found : Option String) (canonical : String) : Table :=
  match found with
  | some c => if c ≠ canonical then setColF t canonical (fun r => getVal r c) else t
  | none => t

/-- The citywalls column standardization: the four sniffs run on the incoming
columns, then the four assignments in source order. -/
def standardizeCW (t : Table) : Table :=
  let sCol := pickCol t "улица" "Улица"
  let hCol := pickCol t "дом" "Дом"
  let lCol := pickCol t "литер" "Литера"
  let kCol := pickCol t "корпус" "Корпус"
  applyStd (applyStd (applyStd (applyStd t sCol "Улица") hCol "Дом") lCol "Литера") kCol "Корпус"

/-- Filling of the still-missing address fields from the per-row extraction of
the 'Адрес' column, in source order Улица, Дом, Корпус, Литера. -/
def addExtractedField (stripP : Bool) (t : Table) (field : String)
    (get : AddressComponents → String) : Table :=
  if t.cols.contains field then t
  else setColF t field (fun r => vStr (get (extract_address_components stripP (getVal r "Адрес"))))

def addExtracted (t : Table) (stripP : Bool) : Table :=
  addExtractedField stripP
    (addExtractedField stripP
      (addExtractedField stripP
        (addExtractedField stripP t "Улица" (fun a => a.street))
        "Дом" (fun a => a.house))
      "Корпус" (fun a => a.corpus))
    "Литера" (fun a => a.liter)

/-- The final normalization loop of `prepare_address_data`:
`fillna('').astype(str).str.strip()`, upper-cased for Литера and Корпус. -/
def normFieldVal (upper : Bool) (v : Val) : Val :=
  let s := match v with
           | vNull => ""
           | vStr s => s
           | vNat n => toString n
  let s' := String.mk (trimChars s.toList)
  vStr (if upper then String.mk (s'.toList.map upperChar) else s')

def normalizeField (t : Table) (field : String) : Table :=
  if t.cols.contains field then
    setColF t field (fun r => normFieldVal (field = "Литера" || field = "Корпус") (getVal r field))
  else t

def normalizeFields (t : Table) : Table :=
  normalizeField (normalizeField (normalizeField (normalizeField t "Улица") "Дом") "Корпус") "Литера"

/-- `prepare_address_data(df, source_name)`: citywalls gets the column sniffing
plus the 'Адрес' fallback when street or house is still missing; opendata gets
the 'Адрес' extraction with city-prefix stripping; both end with the field
normalization loop. -/
def prepare_address_data (df : Table) (sourceName : String) : Table :=
  let t :=
    if sourceName = "citywalls" then
      let t1 := standardizeCW df
      if t1.cols.contains "Адрес"
          && (!(t1.cols.contains "Улица") || !(t1.cols.contains "Дом")) then
        addExtracted t1 false
      else t1
    else if sourceName = "opendata" then
      if df.cols.contains "Адрес" then addExtracted df true else df
    else df
  normalizeFields t

/-- Outcome of loading one input file: a well-formed table, or a structural
failure with the raised message. -/
inductive LoadResult where
  | ok : Table → LoadResult
  | failed : String → LoadResult
deriving DecidableEq, Repr

/-- The `combined_buildings_data` asset body: each failed load is caught inside
the asset and replaced by an empty frame (the error is only logged); when both
frames are empty the asset returns an empty frame; otherwise the two prepared
frames are merged. No structural failure propagates to the caller. (The JSON
convenience column and the on-disk save at the end of the asset are I/O
plumbing outside the record-linkage core and are not modelled.) -/
def combined_buildings_data (loadBuildings loadOpenData : LoadResult) : Table :=
  let buildings_data := match loadBuildings with
    | LoadResult.ok t => t
    | LoadResult.failed _ => { cols := [], rows := [] }
  let open_data := match loadOpenData with
    | LoadResult.ok t => t
    | LoadResult.failed _ => { cols := [], rows := [] }
  if (buildings_data.rows.isEmpty || buildings_data.cols.isEmpty)
      && (open_data.rows.isEmpty || open_data.cols.isEmpty) then { cols := [], rows := [] }
  else
    merge_address_datasets (prepare_address_data buildings_data "citywalls")
      (prepare_address_data open_data "opendata")

/-- Well-formedness of a pair of raw inputs: neither carries the synthetic id
column of the other side (an input that did would make the source crash on a
suffixed id lookup). -/
def GoodInput (df1 df2 : Table) : Prop :=
  "id_1" ∉ df2.cols ∧ "id_2" ∉ df1.cols

def stepRows : Option MergeStep → List Row
  | none => []
  | some st => st.tbl.rows

def stepIds2 : Option MergeStep → List Val
  | none => []
  | some st => st.ids2

def matchedIds1 (df1 df2 : Table) : List Val :=
  stepIds1 (pass1 df1 df2) ++ stepIds1 (pass2 df1 df2)
  ++ stepIds1 (pass3 df1 df2) ++ stepIds1 (pass4 df1 df2)

def matchedIds2 (df1 df2 : Table) : List Val :=
  stepIds2 (pass1 df1 df2) ++ stepIds2 (pass2 df1 df2)
  ++ stepIds2 (pass3 df1 df2) ++ stepIds2 (pass4 df1 df2)

/-- Identifiers of the Source-A residual records (the rows left after the four
passes, which `prepare_unmerged_df` turns one-for-one into residual rows). -/
def residualIds1 (df1 df2 : Table) : List Val :=
  (rem1After4 df1 df2).rows.map (fun r => getVal r "id_1")

def residualIds2 (df1 df2 : Table) : List Val :=
  (rem2After4 df1 df2).rows.map (fun r => getVal r "id_2")

/-- Whether the text contains a split point of `re.split(r',\s*|\s+(?=\d+)', ., 1)`:
a comma, or a whitespace run whose first following character is a digit. -/
def hasSplitChar : List Char → Bool
  | [] => false
  | c :: rest =>
      c = ',' || (c.isWhitespace && isDigitHead ((c :: rest).dropWhile Char.isWhitespace))
      || hasSplitChar rest

/-- One Source-A record and two key-identical Source-B records: the smallest
input on which one pass emits two Linked Pairs for the same identifier. -/
def tblC1A : Table :=
  { cols := ["Улица", "Дом"], rows := [[("Улица", vStr "а"), ("Дом", vStr "1")]] }

def tblC1B : Table :=
  { cols := ["Улица", "Дом"],
    rows := [[("Улица", vStr "а"), ("Дом", vStr "1")],
             [("Улица", vStr "а"), ("Дом", vStr "1")]] }

/-- The spec scenario: Source A has street/house/corpus, Source B only
street/house (no corpus column). -/
def tblC2A : Table :=
  { cols := ["Улица", "Дом", "Корпус"],
    rows := [[("Улица", vStr "Ленина"), ("Дом", vStr "5"), ("Корпус", vStr "2")]] }

def tblC2B : Table :=
  { cols := ["Улица", "Дом"],
    rows := [[("Улица", vStr "ленина"), ("Дом", vStr "5")]] }

/-- A pair linked on street+house where Source A has corpus "" (empty string)
and Source B has corpus "2". -/
def tblC3A : Table :=
  { cols := ["Улица", "Дом", "Корпус"],
    rows := [[("Улица", vStr "Невский"), ("Дом", vStr "10"), ("Корпус", vStr "")]] }

def tblC3B : Table :=
  { cols := ["Улица", "Дом", "Корпус"],
    rows := [[("Улица", vStr "невский"), ("Дом", vStr "10"), ("Корпус", vStr "2")]] }

/-- A one-row Source-B table used to show a failed Source-A load still yields
normal output. -/
def tblC5B : Table :=
  { cols := ["Улица", "Дом"],
    rows := [[("Улица", vStr "Садовая"), ("Дом", vStr "1")]] }

/-- Source A with a field 'Фото' that Source B lacks; one of its rows links,
the other stays residual. -/
def tblC6A : Table :=
  { cols := ["Улица", "Дом", "Фото"],
    rows := [[("Улица", vStr "а"), ("Дом", vStr "1"), ("Фото", vStr "x1")],
             [("Улица", vStr "б"), ("Дом", vStr "2"), ("Фото", vStr "x2")]] }

def tblC6B : Table :=
  { cols := ["Улица", "Дом"], rows := [[("Улица", vStr "а"), ("Дом", vStr "1")]] }

/-- Both sources with all four address columns and one pair matching on the
full pass-1 key. -/
def tblC8A : Table :=
  { cols := ["Улица", "Дом", "Корпус", "Литера"],
    rows := [[("Улица", vStr "Невский пр."), ("Дом", vStr "10"),
              ("Корпус", vStr ""), ("Литера", vStr "")]] }

def tblC8B : Table :=
  { cols := ["Улица", "Дом", "Корпус", "Литера"],
    rows := [[("Улица", vStr "невский пр"), ("Дом", vStr "10"),
              ("Корпус", vStr ""), ("Литера", vStr "")]] }

def stepCols : Option MergeStep → List String
  | none => []
  | some st => st.tbl.cols

/-- The single output row of the C3 scenario. -/
def c3row : Row := ((merge_address_datasets tblC3A tblC3B).rows).headI

/-- The single prepared rows of the C2/C7 scenario. -/
def c7l : Row := ((df1p tblC2A).rows).headI

def c7r : Row := ((df2p tblC2B).rows).headI

/-- The single prepared rows of the C8 witness scenario. -/
def c8l : Row := ((df1p tblC8A).rows).headI

def c8r : Row := ((df2p tblC8B).rows).headI

theorem contains_iff_mem {α : Type} [BEq α] [LawfulBEq α] (l : List α) (a : α) :
    l.contains a = true ↔ a ∈ l := by
  simp [List.contains]

theorem keyAgree_iff (l r : Row) (cols : List String) :
    keyAgree l r cols = true ↔ ∀ c ∈ cols, getVal l c = getVal r c := by
  simp [keyAgree, List.all_eq_true]

theorem mem_joinOn (ls rs : List Row) (cols : List String) (l r : Row) :
    (l, r) ∈ joinOn ls rs cols ↔ l ∈ ls ∧ r ∈ rs ∧ keyAgree l r cols = true := by
  induction ls with
  | nil => simp [joinOn]
  | cons x ls' ih =>
      simp only [joinOn, List.mem_append, List.mem_filterMap, ih, List.mem_cons]
      constructor
      · rintro (⟨r', hr', hif⟩ | ⟨hl, hr, hk⟩)
        · by_cases hk : keyAgree x r' cols = true
          · rw [if_pos hk] at hif
            have hx := Option.some.inj hif
            have hx1 : x = l := congrArg Prod.fst hx
            have hx2 : r' = r := congrArg Prod.snd hx
            subst hx1
            subst hx2
            exact ⟨Or.inl rfl, hr', hk⟩
          · rw [if_neg hk] at hif
            exact absurd hif (by simp)
        · exact ⟨Or.inr hl, hr, hk⟩
      · rintro ⟨hl | hl, hr, hk⟩
        · exact Or.inl ⟨r, hr, by rw [hl] at hk ⊢; rw [if_pos hk]⟩
        · exact Or.inr ⟨hl, hr, hk⟩

theorem hasCol_map_pairs_false (cols : List String) (f : String → String) (g : String → Val)
    (n : String) (hall : ∀ c ∈ cols, f c ≠ n) :
    hasCol (cols.map (fun c => (f c, g c))) n = false := by
  induction cols with
  | nil => rfl
  | cons c cs ih =>
      simp only [List.map_cons, hasCol, Bool.or_eq_false_iff, decide_eq_false_iff_not]
      exact ⟨hall c (List.mem_cons_self c cs),
        ih (fun c' hc' => hall c' (List.mem_cons_of_mem c hc'))⟩

theorem hasCol_map_pairs_true (cols : List String) (f : String → String) (g : String → Val)
    (n : String) (hex : ∃ c ∈ cols, f c = n) :
    hasCol (cols.map (fun c => (f c, g c))) n = true := by
  induction cols with
  | nil => simp at hex
  | cons c cs ih =>
      simp only [List.map_cons, hasCol, Bool.or_eq_true, decide_eq_true_eq]
      by_cases hc : f c = n
      · exact Or.inl hc
      · obtain ⟨c', hc', hfc'⟩ := hex
        rcases List.mem_cons.mp hc' with rfl | hmem
        · exact absurd hfc' hc
        · exact Or.inr (ih ⟨c', hmem, hfc'⟩)

theorem getVal_map_pairs (cols : List String) (f : String → String) (g : String → Val)
    (n : String) (v : Val) (hall : ∀ c ∈ cols, f c = n → g c = v)
    (hex : ∃ c ∈ cols, f c = n) :
    getVal (cols.map (fun c => (f c, g c))) n = v := by
  induction cols with
  | nil => simp at hex
  | cons c cs ih =>
      by_cases hc : f c = n
      · simp only [List.map_cons, getVal, if_pos hc]
        exact hall c (List.mem_cons_self c cs) hc
      · simp only [List.map_cons, getVal, if_neg hc]
        obtain ⟨c', hc', hfc'⟩ := hex
        rcases List.mem_cons.mp hc' with rfl | hmem
        · exact absurd hfc' hc
        · exact ih (fun a ha hf => hall a (List.mem_cons_of_mem c ha) hf) ⟨c', hmem, hfc'⟩

/-- A column name too short to collide with any suffixed name. -/
def shortName (n : String) : Prop :=
  (∀ c : String, c ++ "_citywalls" ≠ n) ∧ (∀ c : String, c ++ "_opendata" ≠ n)

theorem shortName_of_length (n : String) (h : n.length < 9) : shortName n := by
  have h10 : ("_citywalls" : String).length = 10 := rfl
  have h9 : ("_opendata" : String).length = 9 := rfl
  refine ⟨fun c hc => ?_, fun c hc => ?_⟩
  · have hl := congrArg String.length hc
    rw [String.length_append, h10] at hl
    omega
  · have hl := congrArg String.length hc
    rw [String.length_append, h9] at hl
    omega

theorem getVal_mergedRow_left (leftCols rightCols onCols : List String) (l r : Row)
    (n : String) (hs : shortName n) (hnL : n ∈ leftCols)
    (hOnR : n ∉ rightCols ∨ n ∈ onCols) :
    getVal (mergedRow leftCols rightCols onCols l r) n = getVal l n := by
  unfold mergedRow
  have hex : ∃ c ∈ leftCols, sufName c onCols rightCols "_citywalls" = n := by
    refine ⟨n, hnL, ?_⟩
    unfold sufName
    rcases hOnR with hR | hOn
    · by_cases hOn' : onCols.contains n = true
      · rw [if_pos hOn']
      · rw [if_neg hOn', if_neg (by simpa using hR)]
    · rw [if_pos ((contains_iff_mem _ _).mpr hOn)]
  rw [getVal_append_of_hasCol _ _ _ (hasCol_map_pairs_true _ _ _ _ hex)]
  apply getVal_map_pairs _ _ _ _ _ _ hex
  intro c _ hf
  unfold sufName at hf
  by_cases h1 : onCols.contains c = true
  · rw [if_pos h1] at hf
    rw [hf]
  · rw [if_neg h1] at hf
    by_cases h2 : rightCols.contains c = true
    · rw [if_pos h2] at hf
      exact absurd hf (hs.1 c)
    · rw [if_neg h2] at hf
      rw [hf]

theorem getVal_mergedRow_right (leftCols rightCols onCols : List String) (l r : Row)
    (n : String) (hs : shortName n) (hnL : n ∉ leftCols) (hnOn : n ∉ onCols)
    (hnR : n ∈ rightCols) :
    getVal (mergedRow leftCols rightCols onCols l r) n = getVal r n := by
  unfold mergedRow
  have hfalse : ∀ c ∈ leftCols, sufName c onCols rightCols "_citywalls" ≠ n := by
    intro c hc hf
    unfold sufName at hf
    by_cases h1 : onCols.contains c = true
    · rw [if_pos h1] at hf
      exact hnL (hf ▸ hc)
    · rw [if_neg h1] at hf
      by_cases h2 : rightCols.contains c = true
      · rw [if_pos h2] at hf
        exact hs.1 c hf
      · rw [if_neg h2] at hf
        exact hnL (hf ▸ hc)
  rw [getVal_append_of_not_hasCol _ _ _ (hasCol_map_pairs_false _ _ _ _ hfalse)]
  have hex : ∃ c ∈ rightCols.filter (fun c => !(onCols.contains c)),
      sufName c onCols leftCols "_opendata" = n := by
    refine ⟨n, ?_, ?_⟩
    · rw [List.mem_filter]
      refine ⟨hnR, ?_⟩
      simp [hnOn]
    · unfold sufName
      rw [if_neg (by simpa using hnOn), if_neg (by simpa using hnL)]
  apply getVal_map_pairs _ _ _ _ _ _ hex
  intro c hc hf
  rw [List.mem_filter] at hc
  unfold sufName at hf
  by_cases h1 : onCols.contains c = true
  · rw [if_pos h1] at hf
    rw [hf]
  · rw [if_neg h1] at hf
    by_cases h2 : leftCols.contains c = true
    · rw [if_pos h2] at hf
      exact absurd hf (hs.2 c)
    · rw [if_neg h2] at hf
      rw [hf]

theorem getVal_step_row_left (left right : Table) (onCols : List String) (nm : String)
    (l r : Row) (n : String) (hmt : n ≠ "merge_type") (hs : shortName n)
    (hnL : n ∈ left.cols) (hOnR : n ∉ right.cols ∨ n ∈ onCols) :
    getVal (setVal (mergedRow left.cols right.cols onCols l r) "merge_type" (vStr nm)) n
      = getVal l n := by
  rw [getVal_setVal_ne _ _ _ _ hmt]
  exact getVal_mergedRow_left _ _ _ _ _ _ hs hnL hOnR

theorem getVal_step_row_right (left right : Table) (onCols : List String) (nm : String)
    (l r : Row) (n : String) (hmt : n ≠ "merge_type") (hs : shortName n)
    (hnL : n ∉ left.cols) (hnOn : n ∉ onCols) (hnR : n ∈ right.cols) :
    getVal (setVal (mergedRow left.cols right.cols onCols l r) "merge_type" (vStr nm)) n
      = getVal r n := by
  rw [getVal_setVal_ne _ _ _ _ hmt]
  exact getVal_mergedRow_right _ _ _ _ _ _ hs hnL hnOn hnR

theorem mem_ids1_iff (left right : Table) (onCols : List String) (nm : String) (x : Val)
    (hnL : "id_1" ∈ left.cols) (hnR : "id_1" ∉ right.cols) (_hnOn : "id_1" ∉ onCols) :
    x ∈ (merge_and_track left right onCols nm).ids1 ↔
      ∃ l r, (l, r) ∈ joinOn left.rows right.rows onCols ∧ x = getVal l "id_1" := by
  unfold merge_and_track
  simp only [List.map_map, List.mem_map, Function.comp]
  constructor
  · rintro ⟨⟨l, r⟩, hp, hx⟩
    refine ⟨l, r, hp, ?_⟩
    rw [← hx]
    exact getVal_step_row_left left right onCols nm l r "id_1" (by decide)
      (shortName_of_length _ (by decide)) hnL (Or.inl hnR)
  · rintro ⟨l, r, hp, hx⟩
    refine ⟨(l, r), hp, ?_⟩
    rw [hx]
    exact getVal_step_row_left left right onCols nm l r "id_1" (by decide)
      (shortName_of_length _ (by decide)) hnL (Or.inl hnR)

theorem mem_ids2_iff (left right : Table) (onCols : List String) (nm : String) (x : Val)
    (hnL : "id_2" ∉ left.cols) (hnR : "id_2" ∈ right.cols) (hnOn : "id_2" ∉ onCols) :
    x ∈ (merge_and_track left right onCols nm).ids2 ↔
      ∃ l r, (l, r) ∈ joinOn left.rows right.rows onCols ∧ x = getVal r "id_2" := by
  unfold merge_and_track
  simp only [List.map_map, List.mem_map, Function.comp]
  constructor
  · rintro ⟨⟨l, r⟩, hp, hx⟩
    refine ⟨l, r, hp, ?_⟩
    rw [← hx]
    exact getVal_step_row_right left right onCols nm l r "id_2" (by decide)
      (shortName_of_length _ (by decide)) hnL hnOn hnR
  · rintro ⟨l, r, hp, hx⟩
    refine ⟨(l, r), hp, ?_⟩
    rw [hx]
    exact getVal_step_row_right left right onCols nm l r "id_2" (by decide)
      (shortName_of_length _ (by decide)) hnL hnOn hnR

theorem mem_addColName_iff (cols : List String) (c c' : String) :
    c' ∈ addColName cols c ↔ (c' ∈ cols ∨ c' = c) := by
  unfold addColName
  by_cases h : cols.contains c = true
  · rw [if_pos h]
    have hc : c ∈ cols := (contains_iff_mem _ _).mp h
    constructor
    · exact Or.inl
    · rintro (h1 | rfl)
      · exact h1
      · exact hc
  · rw [if_neg h]
    simp [List.mem_append]

theorem mem_setColF_cols_iff (t : Table) (c : String) (f : Row → Val) (c' : String) :
    c' ∈ (setColF t c f).cols ↔ (c' ∈ t.cols ∨ c' = c) :=
  mem_addColName_iff t.cols c c'

theorem mem_addCleanCol_elim (t : Table) (col c : String)
    (h : c ∈ (addCleanCol t col).cols) :
    c ∈ t.cols ∨ (c = cleanName col ∧ col ∈ t.cols) := by
  unfold addCleanCol at h
  by_cases hc : t.cols.contains col = true
  · rw [if_pos hc] at h
    rcases (mem_setColF_cols_iff _ _ _ _).mp h with h1 | h1
    · exact Or.inl h1
    · exact Or.inr ⟨h1, (contains_iff_mem _ _).mp hc⟩
  · rw [if_neg hc] at h
    exact Or.inl h

theorem mem_addCleanCol_of (t : Table) (col c : String) (h : c ∈ t.cols) :
    c ∈ (addCleanCol t col).cols := by
  unfold addCleanCol
  by_cases hc : t.cols.contains col = true
  · rw [if_pos hc]
    exact (mem_setColF_cols_iff _ _ _ _).mpr (Or.inl h)
  · rw [if_neg hc]
    exact h

theorem cleanName_mem_addCleanCol (t : Table) (col : String) (h : col ∈ t.cols) :
    cleanName col ∈ (addCleanCol t col).cols := by
  unfold addCleanCol
  rw [if_pos ((contains_iff_mem _ _).mpr h)]
  exact (mem_setColF_cols_iff _ _ _ _).mpr (Or.inr rfl)

theorem mem_withClean_of (t : Table) (c : String) (h : c ∈ t.cols) :
    c ∈ (withClean t).cols :=
  mem_addCleanCol_of _ _ _ (mem_addCleanCol_of _ _ _ (mem_addCleanCol_of _ _ _
    (mem_addCleanCol_of _ _ _ h)))

theorem mem_addIdCol_iff (t : Table) (idc c : String) :
    c ∈ (addIdCol t idc).cols ↔ (c ∈ t.cols ∨ c = idc) :=
  mem_addColName_iff t.cols idc c

theorem id1_mem_df1p (df1 : Table) : "id_1" ∈ (df1p df1).cols :=
  mem_withClean_of _ _ ((mem_addIdCol_iff _ _ _).mpr (Or.inr rfl))

theorem id2_mem_df2p (df2 : Table) : "id_2" ∈ (df2p df2).cols :=
  mem_withClean_of _ _ ((mem_addIdCol_iff _ _ _).mpr (Or.inr rfl))

theorem id1_not_mem_df2p (df1 df2 : Table) (hg : GoodInput df1 df2) :
    "id_1" ∉ (df2p df2).cols := by
  intro h
  unfold df2p withClean at h
  rcases mem_addCleanCol_elim _ _ _ h with h | ⟨he, _⟩
  · rcases mem_addCleanCol_elim _ _ _ h with h | ⟨he, _⟩
    · rcases mem_addCleanCol_elim _ _ _ h with h | ⟨he, _⟩
      · rcases mem_addCleanCol_elim _ _ _ h with h | ⟨he, _⟩
        · rcases (mem_addIdCol_iff _ _ _).mp h with h2 | h2
          · exact hg.1 h2
          · exact absurd h2 (by decide)
        · exact absurd he (by decide)
      · exact absurd he (by decide)
    · exact absurd he (by decide)
  · exact absurd he (by decide)

theorem id2_not_mem_df1p (df1 df2 : Table) (hg : GoodInput df1 df2) :
    "id_2" ∉ (df1p df1).cols := by
  intro h
  unfold df1p withClean at h
  rcases mem_addCleanCol_elim _ _ _ h with h | ⟨he, _⟩
  · rcases mem_addCleanCol_elim _ _ _ h with h | ⟨he, _⟩
    · rcases mem_addCleanCol_elim _ _ _ h with h | ⟨he, _⟩
      · rcases mem_addCleanCol_elim _ _ _ h with h | ⟨he, _⟩
        · rcases (mem_addIdCol_iff _ _ _).mp h with h2 | h2
          · exact hg.2 h2
          · exact absurd h2 (by decide)
        · exact absurd he (by decide)
      · exact absurd he (by decide)
    · exact absurd he (by decide)
  · exact absurd he (by decide)

theorem corpusClean_not_mem_df2p (df2 : Table) (h1 : "Корпус" ∉ df2.cols)
    (h2 : "Корпус_clean" ∉ df2.cols) : "Корпус_clean" ∉ (df2p df2).cols := by
  intro h
  unfold df2p withClean at h
  rcases mem_addCleanCol_elim _ _ _ h with h | ⟨he, _⟩
  · rcases mem_addCleanCol_elim _ _ _ h with h | ⟨he, hc⟩
    · rcases mem_addCleanCol_elim _ _ _ h with h | ⟨he, _⟩
      · rcases mem_addCleanCol_elim _ _ _ h with h | ⟨he, _⟩
        · rcases (mem_addIdCol_iff _ _ _).mp h with h3 | h3
          · exact h2 h3
          · exact absurd h3 (by decide)
        · exact absurd he (by decide)
      · exact absurd he (by decide)
    · rcases mem_addCleanCol_elim _ _ _ hc with hc | ⟨he2, _⟩
      · rcases mem_addCleanCol_elim _ _ _ hc with hc | ⟨he2, _⟩
        · rcases (mem_addIdCol_iff _ _ _).mp hc with h3 | h3
          · exact h1 h3
          · exact absurd h3 (by decide)
        · exact absurd he2 (by decide)
      · exact absurd he2 (by decide)
  · exact absurd he (by decide)

theorem literClean_not_mem_df2p (df2 : Table) (h1 : "Литера" ∉ df2.cols)
    (h2 : "Литера_clean" ∉ df2.cols) : "Литера_clean" ∉ (df2p df2).cols := by
  intro h
  unfold df2p withClean at h
  rcases mem_addCleanCol_elim _ _ _ h with h | ⟨he, hc⟩
  · rcases mem_addCleanCol_elim _ _ _ h with h | ⟨he, _⟩
    · rcases mem_addCleanCol_elim _ _ _ h with h | ⟨he, _⟩
      · rcases mem_addCleanCol_elim _ _ _ h with h | ⟨he, _⟩
        · rcases (mem_addIdCol_iff _ _ _).mp h with h3 | h3
          · exact h2 h3
          · exact absurd h3 (by decide)
        · exact absurd he (by decide)
      · exact absurd he (by decide)
    · exact absurd he (by decide)
  · rcases mem_addCleanCol_elim _ _ _ hc with hc | ⟨he2, _⟩
    · rcases mem_addCleanCol_elim _ _ _ hc with hc | ⟨he2, _⟩
      · rcases mem_addCleanCol_elim _ _ _ hc with hc | ⟨he2, _⟩
        · rcases (mem_addIdCol_iff _ _ _).mp hc with h3 | h3
          · exact h1 h3
          · exact absurd h3 (by decide)
        · exact absurd he2 (by decide)
      · exact absurd he2 (by decide)
    · exact absurd he2 (by decide)

theorem mem_filterNotIn (t : Table) (idc : String) (ids : List Val) (row : Row) :
    row ∈ (filterNotIn t idc ids).rows ↔ row ∈ t.rows ∧ getVal row idc ∉ ids := by
  unfold filterNotIn
  simp [List.mem_filter, List.contains]

theorem pass1_eq_some (df1 df2 : Table) (st : MergeStep) (h : pass1 df1 df2 = some st) :
    st = merge_and_track (df1p df1) (df2p df2) (pass1Cols df1 df2) "по_всем_полям" := by
  unfold pass1 at h
  by_cases hc : pass1Cols df1 df2 = []
  · rw [if_pos hc] at h
    exact absurd h (by simp)
  · rw [if_neg hc] at h
    exact (Option.some.inj h).symm

theorem pass2_eq_some (df1 df2 : Table) (st : MergeStep) (h : pass2 df1 df2 = some st) :
    st = merge_and_track (rem1After1 df1 df2) (rem2After1 df1 df2) (pass2Cols df1 df2)
      "по_улице_и_дому" := by
  unfold pass2 at h
  by_cases hc : pass2Cols df1 df2 = []
  · rw [if_pos hc] at h
    exact absurd h (by simp)
  · rw [if_neg hc] at h
    exact (Option.some.inj h).symm

theorem pass3_eq_some (df1 df2 : Table) (st : MergeStep) (h : pass3 df1 df2 = some st) :
    2 < (pass3Cols df1 df2).length ∧
    st = merge_and_track (rem1After2 df1 df2) (rem2After2 df1 df2) (pass3Cols df1 df2)
      "по_улице_дому_корпусу" := by
  unfold pass3 at h
  by_cases hc : 2 < (pass3Cols df1 df2).length
  · rw [if_pos hc] at h
    exact ⟨hc, (Option.some.inj h).symm⟩
  · rw [if_neg hc] at h
    exact absurd h (by simp)

theorem pass4_eq_some (df1 df2 : Table) (st : MergeStep) (h : pass4 df1 df2 = some st) :
    2 < (pass4Cols df1 df2).length ∧
    st = merge_and_track (rem1After3 df1 df2) (rem2After3 df1 df2) (pass4Cols df1 df2)
      "по_улице_дому_литере" := by
  unfold pass4 at h
  by_cases hc : 2 < (pass4Cols df1 df2).length
  · rw [if_pos hc] at h
    exact ⟨hc, (Option.some.inj h).symm⟩
  · rw [if_neg hc] at h
    exact absurd h (by simp)

theorem mem_rem1After1 (df1 df2 : Table) (row : Row) :
    row ∈ (rem1After1 df1 df2).rows ↔
      row ∈ (df1p df1).rows ∧ getVal row "id_1" ∉ stepIds1 (pass1 df1 df2) := by
  unfold rem1After1
  cases h : pass1 df1 df2 with
  | none => simp [stepIds1]
  | some st => simp [stepIds1, mem_filterNotIn]

theorem mem_rem2After1 (df1 df2 : Table) (row : Row) :
    row ∈ (rem2After1 df1 df2).rows ↔
      row ∈ (df2p df2).rows ∧ getVal row "id_2" ∉ stepIds2 (pass1 df1 df2) := by
  unfold rem2After1
  cases h : pass1 df1 df2 with
  | none => simp [stepIds2]
  | some st => simp [stepIds2, mem_filterNotIn]

theorem mem_rem1After2 (df1 df2 : Table) (row : Row) :
    row ∈ (rem1After2 df1 df2).rows ↔
      row ∈ (rem1After1 df1 df2).rows ∧ getVal row "id_1" ∉ stepIds1 (pass2 df1 df2) := by
  unfold rem1After2
  cases h : pass2 df1 df2 with
  | none => simp [stepIds1]
  | some st => simp [stepIds1, mem_filterNotIn]

theorem mem_rem2After2 (df1 df2 : Table) (row : Row) :
    row ∈ (rem2After2 df1 df2).rows ↔
      row ∈ (rem2After1 df1 df2).rows ∧ getVal row "id_2" ∉ stepIds2 (pass2 df1 df2) := by
  unfold rem2After2
  cases h : pass2 df1 df2 with
  | none => simp [stepIds2]
  | some st => simp [stepIds2, mem_filterNotIn]

theorem mem_rem1After3 (df1 df2 : Table) (row : Row) :
    row ∈ (rem1After3 df1 df2).rows ↔
      row ∈ (rem1After2 df1 df2).rows ∧ getVal row "id_1" ∉ stepIds1 (pass3 df1 df2) := by
  unfold rem1After3
  cases h : pass3 df1 df2 with
  | none => simp [stepIds1]
  | some st => simp [stepIds1, mem_filterNotIn]

theorem mem_rem2After3 (df1 df2 : Table) (row : Row) :
    row ∈ (rem2After3 df1 df2).rows ↔
      row ∈ (rem2After2 df1 df2).rows ∧ getVal row "id_2" ∉ stepIds2 (pass3 df1 df2) := by
  unfold rem2After3
  cases h : pass3 df1 df2 with
  | none => simp [stepIds2]
  | some st => simp [stepIds2, mem_filterNotIn]

theorem mem_rem1After4 (df1 df2 : Table) (row : Row) :
    row ∈ (rem1After4 df1 df2).rows ↔
      row ∈ (rem1After3 df1 df2).rows ∧ getVal row "id_1" ∉ stepIds1 (pass4 df1 df2) := by
  unfold rem1After4
  cases h : pass4 df1 df2 with
  | none => simp [stepIds1]
  | some st => simp [stepIds1, mem_filterNotIn]

theorem mem_rem2After4 (df1 df2 : Table) (row : Row) :
    row ∈ (rem2After4 df1 df2).rows ↔
      row ∈ (rem2After3 df1 df2).rows ∧ getVal row "id_2" ∉ stepIds2 (pass4 df1 df2) := by
  unfold rem2After4
  cases h : pass4 df1 df2 with
  | none => simp [stepIds2]
  | some st => simp [stepIds2, mem_filterNotIn]

theorem rem1After1_cols (df1 df2 : Table) : (rem1After1 df1 df2).cols = (df1p df1).cols := by
  unfold rem1After1
  cases h : pass1 df1 df2 <;> rfl

theorem rem2After1_cols (df1 df2 : Table) : (rem2After1 df1 df2).cols = (df2p df2).cols := by
  unfold rem2After1
  cases h : pass1 df1 df2 <;> rfl

theorem rem1After2_cols (df1 df2 : Table) : (rem1After2 df1 df2).cols = (df1p df1).cols := by
  unfold rem1After2
  cases h : pass2 df1 df2 <;> simp [filterNotIn, rem1After1_cols]

theorem rem2After2_cols (df1 df2 : Table) : (rem2After2 df1 df2).cols = (df2p df2).cols := by
  unfold rem2After2
  cases h : pass2 df1 df2 <;> simp [filterNotIn, rem2After1_cols]

theorem rem1After3_cols (df1 df2 : Table) : (rem1After3 df1 df2).cols = (df1p df1).cols := by
  unfold rem1After3
  cases h : pass3 df1 df2 <;> simp [filterNotIn, rem1After2_cols]

theorem rem2After3_cols (df1 df2 : Table) : (rem2After3 df1 df2).cols = (df2p df2).cols := by
  unfold rem2After3
  cases h : pass3 df1 df2 <;> simp [filterNotIn, rem2After2_cols]

theorem id1_not_mem_pass1Cols (df1 df2 : Table) : "id_1" ∉ pass1Cols df1 df2 := by
  intro h
  unfold pass1Cols at h
  exact absurd (List.mem_filter.mp h).1 (by decide)

theorem id1_not_mem_pass2Cols (df1 df2 : Table) : "id_1" ∉ pass2Cols df1 df2 := by
  intro h
  unfold pass2Cols at h
  exact absurd (List.mem_filter.mp h).1 (by decide)

theorem id1_not_mem_pass3Cols (df1 df2 : Table) : "id_1" ∉ pass3Cols df1 df2 := by
  intro h
  unfold pass3Cols at h
  exact absurd (List.mem_filter.mp h).1 (by decide)

theorem id1_not_mem_pass4Cols (df1 df2 : Table) : "id_1" ∉ pass4Cols df1 df2 := by
  intro h
  unfold pass4Cols at h
  exact absurd (List.mem_filter.mp h).1 (by decide)

theorem id2_not_mem_pass1Cols (df1 df2 : Table) : "id_2" ∉ pass1Cols df1 df2 := by
  intro h
  unfold pass1Cols at h
  exact absurd (List.mem_filter.mp h).1 (by decide)

theorem id2_not_mem_pass2Cols (df1 df2 : Table) : "id_2" ∉ pass2Cols df1 df2 := by
  intro h
  unfold pass2Cols at h
  exact absurd (List.mem_filter.mp h).1 (by decide)

theorem id2_not_mem_pass3Cols (df1 df2 : Table) : "id_2" ∉ pass3Cols df1 df2 := by
  intro h
  unfold pass3Cols at h
  exact absurd (List.mem_filter.mp h).1 (by decide)

theorem id2_not_mem_pass4Cols (df1 df2 : Table) : "id_2" ∉ pass4Cols df1 df2 := by
  intro h
  unfold pass4Cols at h
  exact absurd (List.mem_filter.mp h).1 (by decide)

theorem stepIds1_pass1_origin (df1 df2 : Table) (hg : GoodInput df1 df2) (x : Val)
    (h : x ∈ stepIds1 (pass1 df1 df2)) :
    ∃ l, l ∈ (df1p df1).rows ∧ x = getVal l "id_1" := by
  cases hp : pass1 df1 df2 with
  | none => rw [hp] at h; simp [stepIds1] at h
  | some st =>
      rw [hp] at h
      rw [pass1_eq_some df1 df2 st hp] at h
      rw [show stepIds1 (some (merge_and_track (df1p df1) (df2p df2) (pass1Cols df1 df2)
        "по_всем_полям")) = (merge_and_track (df1p df1) (df2p df2) (pass1Cols df1 df2)
        "по_всем_полям").ids1 from rfl] at h
      rw [mem_ids1_iff _ _ _ _ _ (id1_mem_df1p df1) (id1_not_mem_df2p df1 df2 hg)
        (id1_not_mem_pass1Cols df1 df2)] at h
      obtain ⟨l, r, hlr, hx⟩ := h
      exact ⟨l, ((mem_joinOn _ _ _ _ _).mp hlr).1, hx⟩

theorem stepIds1_pass2_origin (df1 df2 : Table) (hg : GoodInput df1 df2) (x : Val)
    (h : x ∈ stepIds1 (pass2 df1 df2)) :
    ∃ l, l ∈ (rem1After1 df1 df2).rows ∧ x = getVal l "id_1" := by
  cases hp : pass2 df1 df2 with
  | none => rw [hp] at h; simp [stepIds1] at h
  | some st =>
      rw [hp] at h
      rw [pass2_eq_some df1 df2 st hp] at h
      rw [show stepIds1 (some (merge_and_track (rem1After1 df1 df2) (rem2After1 df1 df2)
        (pass2Cols df1 df2) "по_улице_и_дому")) = (merge_and_track (rem1After1 df1 df2)
        (rem2After1 df1 df2) (pass2Cols df1 df2) "по_улице_и_дому").ids1 from rfl] at h
      rw [mem_ids1_iff _ _ _ _ _ (by rw [rem1After1_cols]; exact id1_mem_df1p df1)
        (by rw [rem2After1_cols]; exact id1_not_mem_df2p df1 df2 hg)
        (id1_not_mem_pass2Cols df1 df2)] at h
      obtain ⟨l, r, hlr, hx⟩ := h
      exact ⟨l, ((mem_joinOn _ _ _ _ _).mp hlr).1, hx⟩

theorem stepIds1_pass3_origin (df1 df2 : Table) (hg : GoodInput df1 df2) (x : Val)
    (h : x ∈ stepIds1 (pass3 df1 df2)) :
    ∃ l, l ∈ (rem1After2 df1 df2).rows ∧ x = getVal l "id_1" := by
  cases hp : pass3 df1 df2 with
  | none => rw [hp] at h; simp [stepIds1] at h
  | some st =>
      rw [hp] at h
      rw [(pass3_eq_some df1 df2 st hp).2] at h
      rw [show stepIds1 (some (merge_and_track (rem1After2 df1 df2) (rem2After2 df1 df2)
        (pass3Cols df1 df2) "по_улице_дому_корпусу")) = (merge_and_track (rem1After2 df1 df2)
        (rem2After2 df1 df2) (pass3Cols df1 df2) "по_улице_дому_корпусу").ids1 from rfl] at h
      rw [mem_ids1_iff _ _ _ _ _ (by rw [rem1After2_cols]; exact id1_mem_df1p df1)
        (by rw [rem2After2_cols]; exact id1_not_mem_df2p df1 df2 hg)
        (id1_not_mem_pass3Cols df1 df2)] at h
      obtain ⟨l, r, hlr, hx⟩ := h
      exact ⟨l, ((mem_joinOn _ _ _ _ _).mp hlr).1, hx⟩

theorem stepIds1_pass4_origin (df1 df2 : Table) (hg : GoodInput df1 df2) (x : Val)
    (h : x ∈ stepIds1 (pass4 df1 df2)) :
    ∃ l, l ∈ (rem1After3 df1 df2).rows ∧ x = getVal l "id_1" := by
  cases hp : pass4 df1 df2 with
  | none => rw [hp] at h; simp [stepIds1] at h
  | some st =>
      rw [hp] at h
      rw [(pass4_eq_some df1 df2 st hp).2] at h
      rw [show stepIds1 (some (merge_and_track (rem1After3 df1 df2) (rem2After3 df1 df2)
        (pass4Cols df1 df2) "по_улице_дому_литере")) = (merge_and_track (rem1After3 df1 df2)
        (rem2After3 df1 df2) (pass4Cols df1 df2) "по_улице_дому_литере").ids1 from rfl] at h
      rw [mem_ids1_iff _ _ _ _ _ (by rw [rem1After3_cols]; exact id1_mem_df1p df1)
        (by rw [rem2After3_cols]; exact id1_not_mem_df2p df1 df2 hg)
        (id1_not_mem_pass4Cols df1 df2)] at h
      obtain ⟨l, r, hlr, hx⟩ := h
      exact ⟨l, ((mem_joinOn _ _ _ _ _).mp hlr).1, hx⟩

theorem stepIds2_pass1_origin (df1 df2 : Table) (hg : GoodInput df1 df2) (x : Val)
    (h : x ∈ stepIds2 (pass1 df1 df2)) :
    ∃ r, r ∈ (df2p df2).rows ∧ x = getVal r "id_2" := by
  cases hp : pass1 df1 df2 with
  | none => rw [hp] at h; simp [stepIds2] at h
  | some st =>
      rw [hp] at h
      rw [pass1_eq_some df1 df2 st hp] at h
      rw [show stepIds2 (some (merge_and_track (df1p df1) (df2p df2) (pass1Cols df1 df2)
        "по_всем_полям")) = (merge_and_track (df1p df1) (df2p df2) (pass1Cols df1 df2)
        "по_всем_полям").ids2 from rfl] at h
      rw [mem_ids2_iff _ _ _ _ _ (id2_not_mem_df1p df1 df2 hg) (id2_mem_df2p df2)
        (id2_not_mem_pass1Cols df1 df2)] at h
      obtain ⟨l, r, hlr, hx⟩ := h
      exact ⟨r, ((mem_joinOn _ _ _ _ _).mp hlr).2.1, hx⟩

theorem stepIds2_pass2_origin (df1 df2 : Table) (hg : GoodInput df1 df2) (x : Val)
    (h : x ∈ stepIds2 (pass2 df1 df2)) :
    ∃ r, r ∈ (rem2After1 df1 df2).rows ∧ x = getVal r "id_2" := by
  cases hp : pass2 df1 df2 with
  | none => rw [hp] at h; simp [stepIds2] at h
  | some st =>
      rw [hp] at h
      rw [pass2_eq_some df1 df2 st hp] at h
      rw [show stepIds2 (some (merge_and_track (rem1After1 df1 df2) (rem2After1 df1 df2)
        (pass2Cols df1 df2) "по_улице_и_дому")) = (merge_and_track (rem1After1 df1 df2)
        (rem2After1 df1 df2) (pass2Cols df1 df2) "по_улице_и_дому").ids2 from rfl] at h
      rw [mem_ids2_iff _ _ _ _ _ (by rw [rem1After1_cols]; exact id2_not_mem_df1p df1 df2 hg)
        (by rw [rem2After1_cols]; exact id2_mem_df2p df2)
        (id2_not_mem_pass2Cols df1 df2)] at h
      obtain ⟨l, r, hlr, hx⟩ := h
      exact ⟨r, ((mem_joinOn _ _ _ _ _).mp hlr).2.1, hx⟩

theorem stepIds2_pass3_origin (df1 df2 : Table) (hg : GoodInput df1 df2) (x : Val)
    (h : x ∈ stepIds2 (pass3 df1 df2)) :
    ∃ r, r ∈ (rem2After2 df1 df2).rows ∧ x = getVal r "id_2" := by
  cases hp : pass3 df1 df2 with
  | none => rw [hp] at h; simp [stepIds2] at h
  | some st =>
      rw [hp] at h
      rw [(pass3_eq_some df1 df2 st hp).2] at h
      rw [show stepIds2 (some (merge_and_track (rem1After2 df1 df2) (rem2After2 df1 df2)
        (pass3Cols df1 df2) "по_улице_дому_корпусу")) = (merge_and_track (rem1After2 df1 df2)
        (rem2After2 df1 df2) (pass3Cols df1 df2) "по_улице_дому_корпусу").ids2 from rfl] at h
      rw [mem_ids2_iff _ _ _ _ _ (by rw [rem1After2_cols]; exact id2_not_mem_df1p df1 df2 hg)
        (by rw [rem2After2_cols]; exact id2_mem_df2p df2)
        (id2_not_mem_pass3Cols df1 df2)] at h
      obtain ⟨l, r, hlr, hx⟩ := h
      exact ⟨r, ((mem_joinOn _ _ _ _ _).mp hlr).2.1, hx⟩

theorem stepIds2_pass4_origin (df1 df2 : Table) (hg : GoodInput df1 df2) (x : Val)
    (h : x ∈ stepIds2 (pass4 df1 df2)) :
    ∃ r, r ∈ (rem2After3 df1 df2).rows ∧ x = getVal r "id_2" := by
  cases hp : pass4 df1 df2 with
  | none => rw [hp] at h; simp [stepIds2] at h
  | some st =>
      rw [hp] at h
      rw [(pass4_eq_some df1 df2 st hp).2] at h
      rw [show stepIds2 (some (merge_and_track (rem1After3 df1 df2) (rem2After3 df1 df2)
        (pass4Cols df1 df2) "по_улице_дому_литере")) = (merge_and_track (rem1After3 df1 df2)
        (rem2After3 df1 df2) (pass4Cols df1 df2) "по_улице_дому_литере").ids2 from rfl] at h
      rw [mem_ids2_iff _ _ _ _ _ (by rw [rem1After3_cols]; exact id2_not_mem_df1p df1 df2 hg)
        (by rw [rem2After3_cols]; exact id2_mem_df2p df2)
        (id2_not_mem_pass4Cols df1 df2)] at h
      obtain ⟨l, r, hlr, hx⟩ := h
      exact ⟨r, ((mem_joinOn _ _ _ _ _).mp hlr).2.1, hx⟩

theorem getVal_numberRows_mem (idc : String) (x : Val) :
    ∀ (rs : List Row) (i : Nat),
      x ∈ (numberRows idc i rs).map (fun r => getVal r idc) ↔
        ∃ k, k < rs.length ∧ x = vNat (i + k) := by
  intro rs
  induction rs with
  | nil =>
      intro i
      simp [numberRows]
  | cons r rs ih =>
      intro i
      simp only [numberRows, List.map_cons, List.mem_cons, getVal_setVal_self, ih (i + 1),
        List.length_cons]
      constructor
      · rintro (rfl | ⟨k, hk, rfl⟩)
        · exact ⟨0, by omega, by rw [Nat.add_zero]⟩
        · exact ⟨k + 1, by omega, by rw [show i + (k + 1) = i + 1 + k by omega]⟩
      · rintro ⟨k, hk, rfl⟩
        cases k with
        | zero => exact Or.inl (by rw [Nat.add_zero])
        | succ k' => exact Or.inr ⟨k', by omega, by rw [show i + 1 + k' = i + (k' + 1) by omega]⟩

theorem map_getVal_addCleanCol (t : Table) (col idc : String) (h : idc ≠ cleanName col) :
    (addCleanCol t col).rows.map (fun r => getVal r idc) =
      t.rows.map (fun r => getVal r idc) := by
  unfold addCleanCol
  by_cases hc : t.cols.contains col = true
  · rw [if_pos hc]
    unfold setColF
    rw [List.map_map]
    exact List.map_congr_left (fun r _ => getVal_setVal_ne _ _ _ _ h)
  · rw [if_neg hc]

theorem map_getVal_withClean (t : Table) (idc : String)
    (h1 : idc ≠ cleanName "Улица") (h2 : idc ≠ cleanName "Дом")
    (h3 : idc ≠ cleanName "Корпус") (h4 : idc ≠ cleanName "Литера") :
    (withClean t).rows.map (fun r => getVal r idc) = t.rows.map (fun r => getVal r idc) := by
  unfold withClean
  rw [map_getVal_addCleanCol _ _ _ h4, map_getVal_addCleanCol _ _ _ h3,
    map_getVal_addCleanCol _ _ _ h2, map_getVal_addCleanCol _ _ _ h1]

theorem mem_map_getVal_df1p (df1 : Table) (x : Val) :
    x ∈ (df1p df1).rows.map (fun r => getVal r "id_1") ↔
      ∃ k, k < df1.rows.length ∧ x = vNat k := by
  unfold df1p
  rw [map_getVal_withClean _ _ (by decide) (by decide) (by decide) (by decide)]
  have h := getVal_numberRows_mem "id_1" x df1.rows 0
  simpa using h

theorem mem_map_getVal_df2p (df2 : Table) (x : Val) :
    x ∈ (df2p df2).rows.map (fun r => getVal r "id_2") ↔
      ∃ k, k < df2.rows.length ∧ x = vNat k := by
  unfold df2p
  rw [map_getVal_withClean _ _ (by decide) (by decide) (by decide) (by decide)]
  have h := getVal_numberRows_mem "id_2" x df2.rows 0
  simpa using h

theorem pass2_ids1_excl (df1 df2 : Table) (hg : GoodInput df1 df2) (x : Val)
    (hx : x ∈ stepIds1 (pass2 df1 df2)) : x ∉ stepIds1 (pass1 df1 df2) := by
  obtain ⟨l, hl, rfl⟩ := stepIds1_pass2_origin df1 df2 hg x hx
  exact ((mem_rem1After1 df1 df2 l).mp hl).2

theorem pass3_ids1_excl (df1 df2 : Table) (hg : GoodInput df1 df2) (x : Val)
    (hx : x ∈ stepIds1 (pass3 df1 df2)) :
    x ∉ stepIds1 (pass1 df1 df2) ∧ x ∉ stepIds1 (pass2 df1 df2) := by
  obtain ⟨l, hl, rfl⟩ := stepIds1_pass3_origin df1 df2 hg x hx
  have h2 := (mem_rem1After2 df1 df2 l).mp hl
  have h1 := (mem_rem1After1 df1 df2 l).mp h2.1
  exact ⟨h1.2, h2.2⟩

theorem pass4_ids1_excl (df1 df2 : Table) (hg : GoodInput df1 df2) (x : Val)
    (hx : x ∈ stepIds1 (pass4 df1 df2)) :
    x ∉ stepIds1 (pass1 df1 df2) ∧ x ∉ stepIds1 (pass2 df1 df2) ∧
      x ∉ stepIds1 (pass3 df1 df2) := by
  obtain ⟨l, hl, rfl⟩ := stepIds1_pass4_origin df1 df2 hg x hx
  have h3 := (mem_rem1After3 df1 df2 l).mp hl
  have h2 := (mem_rem1After2 df1 df2 l).mp h3.1
  have h1 := (mem_rem1After1 df1 df2 l).mp h2.1
  exact ⟨h1.2, h2.2, h3.2⟩

theorem pass2_ids2_excl (df1 df2 : Table) (hg : GoodInput df1 df2) (x : Val)
    (hx : x ∈ stepIds2 (pass2 df1 df2)) : x ∉ stepIds2 (pass1 df1 df2) := by
  obtain ⟨r, hr, rfl⟩ := stepIds2_pass2_origin df1 df2 hg x hx
  exact ((mem_rem2After1 df1 df2 r).mp hr).2

theorem pass3_ids2_excl (df1 df2 : Table) (hg : GoodInput df1 df2) (x : Val)
    (hx : x ∈ stepIds2 (pass3 df1 df2)) :
    x ∉ stepIds2 (pass1 df1 df2) ∧ x ∉ stepIds2 (pass2 df1 df2) := by
  obtain ⟨r, hr, rfl⟩ := stepIds2_pass3_origin df1 df2 hg x hx
  have h2 := (mem_rem2After2 df1 df2 r).mp hr
  have h1 := (mem_rem2After1 df1 df2 r).mp h2.1
  exact ⟨h1.2, h2.2⟩

theorem pass4_ids2_excl (df1 df2 : Table) (hg : GoodInput df1 df2) (x : Val)
    (hx : x ∈ stepIds2 (pass4 df1 df2)) :
    x ∉ stepIds2 (pass1 df1 df2) ∧ x ∉ stepIds2 (pass2 df1 df2) ∧
      x ∉ stepIds2 (pass3 df1 df2) := by
  obtain ⟨r, hr, rfl⟩ := stepIds2_pass4_origin df1 df2 hg x hx
  have h3 := (mem_rem2After3 df1 df2 r).mp hr
  have h2 := (mem_rem2After2 df1 df2 r).mp h3.1
  have h1 := (mem_rem2After1 df1 df2 r).mp h2.1
  exact ⟨h1.2, h2.2, h3.2⟩

theorem partition_side1 (df1 df2 : Table) (i : Nat) (hi : i < df1.rows.length) :
    (vNat i ∈ matchedIds1 df1 df2 ∧ vNat i ∉ residualIds1 df1 df2) ∨
      (vNat i ∉ matchedIds1 df1 df2 ∧ vNat i ∈ residualIds1 df1 df2) := by
  by_cases hm : vNat i ∈ matchedIds1 df1 df2
  · left
    refine ⟨hm, fun hr => ?_⟩
    unfold residualIds1 at hr
    obtain ⟨row, hrow, hid⟩ := List.mem_map.mp hr
    have h4 := (mem_rem1After4 df1 df2 row).mp hrow
    have h3 := (mem_rem1After3 df1 df2 row).mp h4.1
    have h2 := (mem_rem1After2 df1 df2 row).mp h3.1
    have h1 := (mem_rem1After1 df1 df2 row).mp h2.1
    unfold matchedIds1 at hm
    rw [← hid] at hm
    rcases List.mem_append.mp hm with hm' | hmd
    · rcases List.mem_append.mp hm' with hm'' | hmc
      · rcases List.mem_append.mp hm'' with hma | hmb
        · exact h1.2 hma
        · exact h2.2 hmb
      · exact h3.2 hmc
    · exact h4.2 hmd
  · right
    refine ⟨hm, ?_⟩
    have hx : vNat i ∈ (df1p df1).rows.map (fun r => getVal r "id_1") :=
      (mem_map_getVal_df1p df1 (vNat i)).mpr ⟨i, hi, rfl⟩
    obtain ⟨row, hrow, hid⟩ := List.mem_map.mp hx
    unfold matchedIds1 at hm
    simp only [List.mem_append] at hm
    push_neg at hm
    obtain ⟨⟨⟨hm1, hm2⟩, hm3⟩, hm4⟩ := hm
    unfold residualIds1
    refine List.mem_map.mpr ⟨row, ?_, hid⟩
    rw [mem_rem1After4, mem_rem1After3, mem_rem1After2, mem_rem1After1, hid]
    exact ⟨⟨⟨⟨hrow, hm1⟩, hm2⟩, hm3⟩, hm4⟩

theorem partition_side2 (df1 df2 : Table) (i : Nat) (hi : i < df2.rows.length) :
    (vNat i ∈ matchedIds2 df1 df2 ∧ vNat i ∉ residualIds2 df1 df2) ∨
      (vNat i ∉ matchedIds2 df1 df2 ∧ vNat i ∈ residualIds2 df1 df2) := by
  by_cases hm : vNat i ∈ matchedIds2 df1 df2
  · left
    refine ⟨hm, fun hr => ?_⟩
    unfold residualIds2 at hr
    obtain ⟨row, hrow, hid⟩ := List.mem_map.mp hr
    have h4 := (mem_rem2After4 df1 df2 row).mp hrow
    have h3 := (mem_rem2After3 df1 df2 row).mp h4.1
    have h2 := (mem_rem2After2 df1 df2 row).mp h3.1
    have h1 := (mem_rem2After1 df1 df2 row).mp h2.1
    unfold matchedIds2 at hm
    rw [← hid] at hm
    rcases List.mem_append.mp hm with hm' | hmd
    · rcases List.mem_append.mp hm' with hm'' | hmc
      · rcases List.mem_append.mp hm'' with hma | hmb
        · exact h1.2 hma
        · exact h2.2 hmb
      · exact h3.2 hmc
    · exact h4.2 hmd
  · right
    refine ⟨hm, ?_⟩
    have hx : vNat i ∈ (df2p df2).rows.map (fun r => getVal r "id_2") :=
      (mem_map_getVal_df2p df2 (vNat i)).mpr ⟨i, hi, rfl⟩
    obtain ⟨row, hrow, hid⟩ := List.mem_map.mp hx
    unfold matchedIds2 at hm
    simp only [List.mem_append] at hm
    push_neg at hm
    obtain ⟨⟨⟨hm1, hm2⟩, hm3⟩, hm4⟩ := hm
    unfold residualIds2
    refine List.mem_map.mpr ⟨row, ?_, hid⟩
    rw [mem_rem2After4, mem_rem2After3, mem_rem2After2, mem_rem2After1, hid]
    exact ⟨⟨⟨⟨hrow, hm1⟩, hm2⟩, hm3⟩, hm4⟩

theorem pass3_forces (df1 df2 : Table) (h : 2 < (pass3Cols df1 df2).length) :
    pass3Cols df1 df2 = ["Улица_clean", "Дом_clean", "Корпус_clean"] ∧
      pass2Cols df1 df2 = ["Улица_clean", "Дом_clean"] := by
  unfold pass3Cols at h ⊢
  unfold pass2Cols
  have hmap3 : (["Улица", "Дом", "Корпус"].map cleanName) =
      ["Улица_clean", "Дом_clean", "Корпус_clean"] := rfl
  have hmap2 : (["Улица", "Дом"].map cleanName) = ["Улица_clean", "Дом_clean"] := rfl
  rw [hmap3] at h ⊢
  rw [hmap2]
  by_cases hA : ("Улица_clean" ∈ (df1p df1).cols ∧ "Улица_clean" ∈ (df2p df2).cols)
  · by_cases hB : ("Дом_clean" ∈ (df1p df1).cols ∧ "Дом_clean" ∈ (df2p df2).cols)
    · by_cases hC : ("Корпус_clean" ∈ (df1p df1).cols ∧ "Корпус_clean" ∈ (df2p df2).cols)
      · constructor <;> simp [List.filter_cons, hA, hB, hC]
      · exact absurd h (by simp [List.filter_cons, hA, hB, hC])
    · by_cases hC : ("Корпус_clean" ∈ (df1p df1).cols ∧ "Корпус_clean" ∈ (df2p df2).cols)
      · exact absurd h (by simp [List.filter_cons, hA, hB, hC])
      · exact absurd h (by simp [List.filter_cons, hA, hB, hC])
  · by_cases hB : ("Дом_clean" ∈ (df1p df1).cols ∧ "Дом_clean" ∈ (df2p df2).cols)
    · by_cases hC : ("Корпус_clean" ∈ (df1p df1).cols ∧ "Корпус_clean" ∈ (df2p df2).cols)
      · exact absurd h (by simp [List.filter_cons, hA, hB, hC])
      · exact absurd h (by simp [List.filter_cons, hA, hB, hC])
    · by_cases hC : ("Корпус_clean" ∈ (df1p df1).cols ∧ "Корпус_clean" ∈ (df2p df2).cols)
      · exact absurd h (by simp [List.filter_cons, hA, hB, hC])
      · exact absurd h (by simp [List.filter_cons, hA, hB, hC])

theorem pass4_forces (df1 df2 : Table) (h : 2 < (pass4Cols df1 df2).length) :
    pass4Cols df1 df2 = ["Улица_clean", "Дом_clean", "Литера_clean"] ∧
      pass2Cols df1 df2 = ["Улица_clean", "Дом_clean"] := by
  unfold pass4Cols at h ⊢
  unfold pass2Cols
  have hmap3 : (["Улица", "Дом", "Литера"].map cleanName) =
      ["Улица_clean", "Дом_clean", "Литера_clean"] := rfl
  have hmap2 : (["Улица", "Дом"].map cleanName) = ["Улица_clean", "Дом_clean"] := rfl
  rw [hmap3] at h ⊢
  rw [hmap2]
  by_cases hA : ("Улица_clean" ∈ (df1p df1).cols ∧ "Улица_clean" ∈ (df2p df2).cols)
  · by_cases hB : ("Дом_clean" ∈ (df1p df1).cols ∧ "Дом_clean" ∈ (df2p df2).cols)
    · by_cases hC : ("Литера_clean" ∈ (df1p df1).cols ∧ "Литера_clean" ∈ (df2p df2).cols)
      · constructor <;> simp [List.filter_cons, hA, hB, hC]
      · exact absurd h (by simp [List.filter_cons, hA, hB, hC])
    · by_cases hC : ("Литера_clean" ∈ (df1p df1).cols ∧ "Литера_clean" ∈ (df2p df2).cols)
      · exact absurd h (by simp [List.filter_cons, hA, hB, hC])
      · exact absurd h (by simp [List.filter_cons, hA, hB, hC])
  · by_cases hB : ("Дом_clean" ∈ (df1p df1).cols ∧ "Дом_clean" ∈ (df2p df2).cols)
    · by_cases hC : ("Литера_clean" ∈ (df1p df1).cols ∧ "Литера_clean" ∈ (df2p df2).cols)
      · exact absurd h (by simp [List.filter_cons, hA, hB, hC])
      · exact absurd h (by simp [List.filter_cons, hA, hB, hC])
    · by_cases hC : ("Литера_clean" ∈ (df1p df1).cols ∧ "Литера_clean" ∈ (df2p df2).cols)
      · exact absurd h (by simp [List.filter_cons, hA, hB, hC])
      · exact absurd h (by simp [List.filter_cons, hA, hB, hC])

theorem pass2_runs_of_cols (df1 df2 : Table) (h : pass2Cols df1 df2 = ["Улица_clean", "Дом_clean"]) :
    pass2 df1 df2 = some (merge_and_track (rem1After1 df1 df2) (rem2After1 df1 df2)
      (pass2Cols df1 df2) "по_улице_и_дому") := by
  unfold pass2
  rw [if_neg (by rw [h]; simp)]

theorem joinOn_pass3_nil (df1 df2 : Table) (hg : GoodInput df1 df2)
    (h3 : 2 < (pass3Cols df1 df2).length) :
    joinOn (rem1After2 df1 df2).rows (rem2After2 df1 df2).rows (pass3Cols df1 df2) = [] := by
  rw [List.eq_nil_iff_forall_not_mem]
  rintro ⟨l, r⟩ hlr
  rw [mem_joinOn] at hlr
  obtain ⟨hl, hr, hk⟩ := hlr
  obtain ⟨h3eq, h2eq⟩ := pass3_forces df1 df2 h3
  have hp2 := pass2_runs_of_cols df1 df2 h2eq
  have hk2 : keyAgree l r (pass2Cols df1 df2) = true := by
    rw [keyAgree_iff] at hk ⊢
    intro c hc
    apply hk
    rw [h3eq]
    rw [h2eq] at hc
    simp only [List.mem_cons, List.not_mem_nil, or_false] at hc
    rcases hc with rfl | rfl <;> simp
  have hl2 := (mem_rem1After2 df1 df2 l).mp hl
  have hr2 := (mem_rem2After2 df1 df2 r).mp hr
  apply hl2.2
  rw [hp2]
  rw [show stepIds1 (some (merge_and_track (rem1After1 df1 df2) (rem2After1 df1 df2)
    (pass2Cols df1 df2) "по_улице_и_дому")) = (merge_and_track (rem1After1 df1 df2)
    (rem2After1 df1 df2) (pass2Cols df1 df2) "по_улице_и_дому").ids1 from rfl]
  rw [mem_ids1_iff _ _ _ _ _ (by rw [rem1After1_cols]; exact id1_mem_df1p df1)
    (by rw [rem2After1_cols]; exact id1_not_mem_df2p df1 df2 hg)
    (id1_not_mem_pass2Cols df1 df2)]
  exact ⟨l, r, (mem_joinOn _ _ _ _ _).mpr ⟨hl2.1, hr2.1, hk2⟩, rfl⟩

theorem joinOn_pass4_nil (df1 df2 : Table) (hg : GoodInput df1 df2)
    (h4 : 2 < (pass4Cols df1 df2).length) :
    joinOn (rem1After3 df1 df2).rows (rem2After3 df1 df2).rows (pass4Cols df1 df2) = [] := by
  rw [List.eq_nil_iff_forall_not_mem]
  rintro ⟨l, r⟩ hlr
  rw [mem_joinOn] at hlr
  obtain ⟨hl, hr, hk⟩ := hlr
  obtain ⟨h4eq, h2eq⟩ := pass4_forces df1 df2 h4
  have hp2 := pass2_runs_of_cols df1 df2 h2eq
  have hk2 : keyAgree l r (pass2Cols df1 df2) = true := by
    rw [keyAgree_iff] at hk ⊢
    intro c hc
    apply hk
    rw [h4eq]
    rw [h2eq] at hc
    simp only [List.mem_cons, List.not_mem_nil, or_false] at hc
    rcases hc with rfl | rfl <;> simp
  have hl3 := (mem_rem1After3 df1 df2 l).mp hl
  have hr3 := (mem_rem2After3 df1 df2 r).mp hr
  have hl2 := (mem_rem1After2 df1 df2 l).mp hl3.1
  have hr2 := (mem_rem2After2 df1 df2 r).mp hr3.1
  apply hl2.2
  rw [hp2]
  rw [show stepIds1 (some (merge_and_track (rem1After1 df1 df2) (rem2After1 df1 df2)
    (pass2Cols df1 df2) "по_улице_и_дому")) = (merge_and_track (rem1After1 df1 df2)
    (rem2After1 df1 df2) (pass2Cols df1 df2) "по_улице_и_дому").ids1 from rfl]
  rw [mem_ids1_iff _ _ _ _ _ (by rw [rem1After1_cols]; exact id1_mem_df1p df1)
    (by rw [rem2After1_cols]; exact id1_not_mem_df2p df1 df2 hg)
    (id1_not_mem_pass2Cols df1 df2)]
  exact ⟨l, r, (mem_joinOn _ _ _ _ _).mpr ⟨hl2.1, hr2.1, hk2⟩, rfl⟩

theorem pass3_step_nil (df1 df2 : Table) (hg : GoodInput df1 df2) :
    stepRows (pass3 df1 df2) = [] ∧ stepIds1 (pass3 df1 df2) = [] ∧
      stepIds2 (pass3 df1 df2) = [] := by
  cases hp : pass3 df1 df2 with
  | none => exact ⟨rfl, rfl, rfl⟩
  | some st =>
      obtain ⟨hlen, hst⟩ := pass3_eq_some df1 df2 st hp
      have hnil := joinOn_pass3_nil df1 df2 hg hlen
      subst hst
      unfold merge_and_track
      simp [stepRows, stepIds1, stepIds2, hnil]

theorem pass4_step_nil (df1 df2 : Table) (hg : GoodInput df1 df2) :
    stepRows (pass4 df1 df2) = [] ∧ stepIds1 (pass4 df1 df2) = [] ∧
      stepIds2 (pass4 df1 df2) = [] := by
  cases hp : pass4 df1 df2 with
  | none => exact ⟨rfl, rfl, rfl⟩
  | some st =>
      obtain ⟨hlen, hst⟩ := pass4_eq_some df1 df2 st hp
      have hnil := joinOn_pass4_nil df1 df2 hg hlen
      subst hst
      unfold merge_and_track
      simp [stepRows, stepIds1, stepIds2, hnil]

theorem merge_type_merge_and_track (left right : Table) (onCols : List String) (nm : String)
    (row : Row) (h : row ∈ (merge_and_track left right onCols nm).tbl.rows) :
    getVal row "merge_type" = vStr nm := by
  unfold merge_and_track at h
  obtain ⟨p, _, heq⟩ := List.mem_map.mp h
  rw [← heq]
  exact getVal_setVal_self _ _ _

theorem merge_type_prepare_unmerged (df other : Table) (idc nm : String) (row : Row)
    (h : row ∈ (prepare_unmerged_df df other idc nm).rows) :
    getVal row "merge_type" = vStr nm := by
  unfold prepare_unmerged_df at h
  by_cases hc : (df.rows.isEmpty || df.cols.isEmpty) = true
  · rw [if_pos hc] at h
    exact absurd h (by simp)
  · rw [if_neg hc] at h
    simp only [setColF, List.mem_map] at h
    obtain ⟨r0, _, heq⟩ := h
    rw [← heq]
    exact getVal_setVal_self _ _ _

theorem mem_setColF_rows (t : Table) (c : String) (f : Row → Val) (row : Row) :
    row ∈ (setColF t c f).rows ↔ ∃ r0 ∈ t.rows, row = setVal r0 c (f r0) := by
  unfold setColF
  simp only [List.mem_map]
  constructor
  · rintro ⟨r0, hr0, heq⟩
    exact ⟨r0, hr0, heq.symm⟩
  · rintro ⟨r0, hr0, heq⟩
    exact ⟨r0, hr0, heq.symm⟩

theorem mem_concat_rows (ts : List Table) (row : Row) :
    row ∈ (concatTables ts).rows ↔ ∃ t ∈ ts, row ∈ t.rows := by
  unfold concatTables
  suffices h : ∀ acc, row ∈ ts.foldl (fun acc t => acc ++ t.rows) acc ↔
      row ∈ acc ∨ ∃ t ∈ ts, row ∈ t.rows by
    simpa using h []
  induction ts with
  | nil =>
      intro acc
      simp
  | cons t ts ih =>
      intro acc
      rw [List.foldl_cons, ih]
      simp only [List.mem_append, List.mem_cons]
      constructor
      · rintro ((h | h) | ⟨t', ht', hr⟩)
        · exact Or.inl h
        · exact Or.inr ⟨t, Or.inl rfl, h⟩
        · exact Or.inr ⟨t', Or.inr ht', hr⟩
      · rintro (h | ⟨t', ht' | ht', hr⟩)
        · exact Or.inl (Or.inl h)
        · exact Or.inl (Or.inr (ht' ▸ hr))
        · exact Or.inr ⟨t', ht', hr⟩

theorem mem_optTbl (o : Option MergeStep) (t : Table) :
    t ∈ optTbl o ↔ ∃ st, o = some st ∧ t = st.tbl := by
  cases o <;> simp [optTbl]

theorem mem_nonEmptyTbl (t0 t : Table) (h : t ∈ nonEmptyTbl t0) : t = t0 := by
  unfold nonEmptyTbl at h
  by_cases hc : (t0.rows.isEmpty || t0.cols.isEmpty) = true
  · rw [if_pos hc] at h
    exact absurd h (by simp)
  · rw [if_neg hc] at h
    simpa using h

theorem mem_coalesceCol_other (t : Table) (col c : String) (hc : c ≠ col) (row : Row)
    (h : row ∈ (coalesceCol t col).rows) :
    ∃ r0 ∈ t.rows, getVal row c = getVal r0 c := by
  simp only [coalesceCol] at h
  split_ifs at h with h1 h2 h3
  · obtain ⟨r0, hr0, heq⟩ := (mem_setColF_rows _ _ _ _).mp h
    exact ⟨r0, hr0, by rw [heq, getVal_setVal_ne _ _ _ _ hc]⟩
  · obtain ⟨r0, hr0, heq⟩ := (mem_setColF_rows _ _ _ _).mp h
    exact ⟨r0, hr0, by rw [heq, getVal_setVal_ne _ _ _ _ hc]⟩
  · obtain ⟨r0, hr0, heq⟩ := (mem_setColF_rows _ _ _ _).mp h
    exact ⟨r0, hr0, by rw [heq, getVal_setVal_ne _ _ _ _ hc]⟩
  · exact ⟨row, h, rfl⟩

theorem mem_coalesceAll_other (t : Table) (c : String) (h1 : c ≠ "Улица") (h2 : c ≠ "Дом")
    (h3 : c ≠ "Корпус") (h4 : c ≠ "Литера") (row : Row) (h : row ∈ (coalesceAll t).rows) :
    ∃ r0 ∈ t.rows, getVal row c = getVal r0 c := by
  unfold coalesceAll at h
  obtain ⟨r3, hr3, he4⟩ := mem_coalesceCol_other _ _ _ h4 _ h
  obtain ⟨r2, hr2, he3⟩ := mem_coalesceCol_other _ _ _ h3 _ hr3
  obtain ⟨r1, hr1, he2⟩ := mem_coalesceCol_other _ _ _ h2 _ hr2
  obtain ⟨r0, hr0, he1⟩ := mem_coalesceCol_other _ _ _ h1 _ hr1
  exact ⟨r0, hr0, by rw [he4, he3, he2, he1]⟩

theorem getVal_filter_keep (r : Row) (q : String → Bool) (c : String) (h : q c = false) :
    getVal (r.filter (fun p => !(q p.1))) c = getVal r c := by
  induction r with
  | nil => rfl
  | cons p rest ih =>
      obtain ⟨a, b⟩ := p
      by_cases hk : q a = true
      · have ha : a ≠ c := by
          intro hh
          rw [hh, h] at hk
          exact absurd hk (by simp)
        rw [List.filter_cons, if_neg (by simp [hk])]
        rw [ih]
        simp [getVal, ha]
      · have hk' : q a = false := by
          cases hqa : q a
          · rfl
          · exact absurd hqa hk
        rw [List.filter_cons, if_pos (by simp [hk'])]
        by_cases ha : a = c
        · simp [getVal, ha]
        · simp only [getVal, if_neg ha]
          exact ih

theorem getVal_filter_not_dropped (r : Row) (cs : List String) (c : String)
    (h : cs.contains c = false) :
    getVal (r.filter (fun p => !(cs.contains p.1))) c = getVal r c :=
  getVal_filter_keep r (fun x => cs.contains x) c h

theorem mem_dropTheCols (t : Table) (cs : List String) (row : Row) :
    row ∈ (dropTheCols t cs).rows ↔
      ∃ r0 ∈ t.rows, row = r0.filter (fun p => !(cs.contains p.1)) := by
  unfold dropTheCols
  simp only [List.mem_map]
  constructor
  · rintro ⟨r0, hr0, heq⟩
    exact ⟨r0, hr0, heq.symm⟩
  · rintro ⟨r0, hr0, heq⟩
    exact ⟨r0, hr0, heq.symm⟩

theorem final_tag_origin (df1 df2 : Table) (row : Row)
    (h : row ∈ (merge_address_datasets df1 df2).rows) :
    ∃ row0 ∈ (concatTables (merge_results df1 df2)).rows,
      getVal row "merge_type" = getVal row0 "merge_type" := by
  unfold merge_address_datasets at h
  by_cases hmr : merge_results df1 df2 = []
  · rw [if_pos hmr] at h
    exact absurd h (by simp)
  · rw [if_neg hmr] at h
    obtain ⟨r1, hr1, heq1⟩ := (mem_dropTheCols _ _ _).mp h
    obtain ⟨r2, hr2, heq2⟩ := (mem_setColF_rows _ _ _ _).mp hr1
    obtain ⟨r0, hr0, heq3⟩ := mem_coalesceAll_other _ "merge_type" (by decide) (by decide)
      (by decide) (by decide) _ hr2
    refine ⟨r0, hr0, ?_⟩
    rw [heq1, getVal_filter_not_dropped _ _ _ (by decide), heq2,
      getVal_setVal_ne _ _ _ _ (by decide), heq3]

theorem merge_results_tags (df1 df2 : Table) (hg : GoodInput df1 df2) (t : Table)
    (ht : t ∈ merge_results df1 df2) (row : Row) (hrow : row ∈ t.rows) :
    getVal row "merge_type" = vStr "по_всем_полям" ∨
    getVal row "merge_type" = vStr "по_улице_и_дому" ∨
    getVal row "merge_type" = vStr "только_citywalls" ∨
    getVal row "merge_type" = vStr "только_opendata" := by
  unfold merge_results at ht
  rcases List.mem_append.mp ht with ht' | ht2only
  rcases List.mem_append.mp ht' with ht'' | ht1only
  rcases List.mem_append.mp ht'' with ht''' | htp4
  rcases List.mem_append.mp ht''' with ht'''' | htp3
  rcases List.mem_append.mp ht'''' with htp1 | htp2
  · obtain ⟨st, hst, rfl⟩ := (mem_optTbl _ _).mp htp1
    rw [pass1_eq_some df1 df2 st hst] at hrow
    exact Or.inl (merge_type_merge_and_track _ _ _ _ _ hrow)
  · obtain ⟨st, hst, rfl⟩ := (mem_optTbl _ _).mp htp2
    rw [pass2_eq_some df1 df2 st hst] at hrow
    exact Or.inr (Or.inl (merge_type_merge_and_track _ _ _ _ _ hrow))
  · obtain ⟨st, hst, rfl⟩ := (mem_optTbl _ _).mp htp3
    have hnil : st.tbl.rows = [] := by
      have h3 := (pass3_step_nil df1 df2 hg).1
      rw [hst] at h3
      exact h3
    rw [hnil] at hrow
    exact absurd hrow (by simp)
  · obtain ⟨st, hst, rfl⟩ := (mem_optTbl _ _).mp htp4
    have hnil : st.tbl.rows = [] := by
      have h4 := (pass4_step_nil df1 df2 hg).1
      rw [hst] at h4
      exact h4
    rw [hnil] at hrow
    exact absurd hrow (by simp)
  · rw [mem_nonEmptyTbl _ _ ht1only] at hrow
    exact Or.inr (Or.inr (Or.inl (merge_type_prepare_unmerged _ _ _ _ _ hrow)))
  · rw [mem_nonEmptyTbl _ _ ht2only] at hrow
    exact Or.inr (Or.inr (Or.inr (merge_type_prepare_unmerged _ _ _ _ _ hrow)))

theorem uliClean_mem_withClean (t : Table) (h : "Улица" ∈ t.cols) :
    "Улица_clean" ∈ (withClean t).cols := by
  unfold withClean
  exact mem_addCleanCol_of _ _ _ (mem_addCleanCol_of _ _ _ (mem_addCleanCol_of _ _ _
    (cleanName_mem_addCleanCol t "Улица" h)))

theorem domClean_mem_withClean (t : Table) (h : "Дом" ∈ t.cols) :
    "Дом_clean" ∈ (withClean t).cols := by
  unfold withClean
  exact mem_addCleanCol_of _ _ _ (mem_addCleanCol_of _ _ _
    (cleanName_mem_addCleanCol _ "Дом" (mem_addCleanCol_of _ _ _ h)))

theorem korClean_mem_withClean (t : Table) (h : "Корпус" ∈ t.cols) :
    "Корпус_clean" ∈ (withClean t).cols := by
  unfold withClean
  exact mem_addCleanCol_of _ _ _
    (cleanName_mem_addCleanCol _ "Корпус" (mem_addCleanCol_of _ _ _ (mem_addCleanCol_of _ _ _ h)))

theorem litClean_mem_withClean (t : Table) (h : "Литера" ∈ t.cols) :
    "Литера_clean" ∈ (withClean t).cols := by
  unfold withClean
  exact cleanName_mem_addCleanCol _ "Литера"
    (mem_addCleanCol_of _ _ _ (mem_addCleanCol_of _ _ _ (mem_addCleanCol_of _ _ _ h)))

theorem pass1Cols_all (df1 df2 : Table)
    (hu1 : "Улица" ∈ df1.cols) (hu2 : "Улица" ∈ df2.cols)
    (hd1 : "Дом" ∈ df1.cols) (hd2 : "Дом" ∈ df2.cols)
    (hk1 : "Корпус" ∈ df1.cols) (hk2 : "Корпус" ∈ df2.cols)
    (hl1 : "Литера" ∈ df1.cols) (hl2 : "Литера" ∈ df2.cols) :
    pass1Cols df1 df2 = cleanFour := by
  unfold pass1Cols
  apply List.filter_eq_self.mpr
  intro c hc
  have he : cleanFour = ["Улица_clean", "Дом_clean", "Корпус_clean", "Литера_clean"] := rfl
  rw [he] at hc
  simp only [List.mem_cons, List.not_mem_nil, or_false] at hc
  have m1u : "Улица" ∈ (addIdCol df1 "id_1").cols := (mem_addIdCol_iff _ _ _).mpr (Or.inl hu1)
  have m2u : "Улица" ∈ (addIdCol df2 "id_2").cols := (mem_addIdCol_iff _ _ _).mpr (Or.inl hu2)
  have m1d : "Дом" ∈ (addIdCol df1 "id_1").cols := (mem_addIdCol_iff _ _ _).mpr (Or.inl hd1)
  have m2d : "Дом" ∈ (addIdCol df2 "id_2").cols := (mem_addIdCol_iff _ _ _).mpr (Or.inl hd2)
  have m1k : "Корпус" ∈ (addIdCol df1 "id_1").cols := (mem_addIdCol_iff _ _ _).mpr (Or.inl hk1)
  have m2k : "Корпус" ∈ (addIdCol df2 "id_2").cols := (mem_addIdCol_iff _ _ _).mpr (Or.inl hk2)
  have m1l : "Литера" ∈ (addIdCol df1 "id_1").cols := (mem_addIdCol_iff _ _ _).mpr (Or.inl hl1)
  have m2l : "Литера" ∈ (addIdCol df2 "id_2").cols := (mem_addIdCol_iff _ _ _).mpr (Or.inl hl2)
  rcases hc with rfl | rfl | rfl | rfl
  · rw [Bool.and_eq_true]
    exact ⟨(contains_iff_mem _ _).mpr (uliClean_mem_withClean _ m1u),
      (contains_iff_mem _ _).mpr (uliClean_mem_withClean _ m2u)⟩
  · rw [Bool.and_eq_true]
    exact ⟨(contains_iff_mem _ _).mpr (domClean_mem_withClean _ m1d),
      (contains_iff_mem _ _).mpr (domClean_mem_withClean _ m2d)⟩
  · rw [Bool.and_eq_true]
    exact ⟨(contains_iff_mem _ _).mpr (korClean_mem_withClean _ m1k),
      (contains_iff_mem _ _).mpr (korClean_mem_withClean _ m2k)⟩
  · rw [Bool.and_eq_true]
    exact ⟨(contains_iff_mem _ _).mpr (litClean_mem_withClean _ m1l),
      (contains_iff_mem _ _).mpr (litClean_mem_withClean _ m2l)⟩

theorem pass1_claims_pair (df1 df2 : Table) (hg : GoodInput df1 df2)
    (hrun : pass1Cols df1 df2 ≠ [])
    (l r : Row) (hl : l ∈ (df1p df1).rows) (hr : r ∈ (df2p df2).rows)
    (hkey : keyAgree l r (pass1Cols df1 df2) = true) :
    getVal l "id_1" ∈ stepIds1 (pass1 df1 df2) ∧
    getVal r "id_2" ∈ stepIds2 (pass1 df1 df2) ∧
    setVal (mergedRow (df1p df1).cols (df2p df2).cols (pass1Cols df1 df2) l r)
      "merge_type" (vStr "по_всем_полям") ∈ stepRows (pass1 df1 df2) ∧
    l ∉ (rem1After1 df1 df2).rows ∧ r ∉ (rem2After1 df1 df2).rows := by
  have hp1 : pass1 df1 df2 = some (merge_and_track (df1p df1) (df2p df2)
      (pass1Cols df1 df2) "по_всем_полям") := by
    unfold pass1
    rw [if_neg hrun]
  have hpair : (l, r) ∈ joinOn (df1p df1).rows (df2p df2).rows (pass1Cols df1 df2) :=
    (mem_joinOn _ _ _ _ _).mpr ⟨hl, hr, hkey⟩
  have hid1 : getVal l "id_1" ∈ stepIds1 (pass1 df1 df2) := by
    rw [hp1]
    rw [show stepIds1 (some (merge_and_track (df1p df1) (df2p df2) (pass1Cols df1 df2)
      "по_всем_полям")) = (merge_and_track (df1p df1) (df2p df2) (pass1Cols df1 df2)
      "по_всем_полям").ids1 from rfl]
    rw [mem_ids1_iff _ _ _ _ _ (id1_mem_df1p df1) (id1_not_mem_df2p df1 df2 hg)
      (id1_not_mem_pass1Cols df1 df2)]
    exact ⟨l, r, hpair, rfl⟩
  have hid2 : getVal r "id_2" ∈ stepIds2 (pass1 df1 df2) := by
    rw [hp1]
    rw [show stepIds2 (some (merge_and_track (df1p df1) (df2p df2) (pass1Cols df1 df2)
      "по_всем_полям")) = (merge_and_track (df1p df1) (df2p df2) (pass1Cols df1 df2)
      "по_всем_полям").ids2 from rfl]
    rw [mem_ids2_iff _ _ _ _ _ (id2_not_mem_df1p df1 df2 hg) (id2_mem_df2p df2)
      (id2_not_mem_pass1Cols df1 df2)]
    exact ⟨l, r, hpair, rfl⟩
  refine ⟨hid1, hid2, ?_, ?_, ?_⟩
  · rw [hp1]
    show _ ∈ (merge_and_track (df1p df1) (df2p df2) (pass1Cols df1 df2) "по_всем_полям").tbl.rows
    unfold merge_and_track
    simp only [List.mem_map]
    exact ⟨(l, r), hpair, rfl⟩
  · intro hmem
    exact ((mem_rem1After1 df1 df2 l).mp hmem).2 hid1
  · intro hmem
    exact ((mem_rem2After1 df1 df2 r).mp hmem).2 hid2

theorem pass3_none_of (df1 df2 : Table) (h : "Корпус_clean" ∉ (df2p df2).cols) :
    pass3 df1 df2 = none := by
  unfold pass3
  rw [if_neg]
  intro hlen
  have he := (pass3_forces df1 df2 hlen).1
  have hmem : "Корпус_clean" ∈ pass3Cols df1 df2 := by
    rw [he]
    simp
  unfold pass3Cols at hmem
  have hp := (List.mem_filter.mp hmem).2
  rw [Bool.and_eq_true] at hp
  exact h ((contains_iff_mem _ _).mp hp.2)

theorem pass4_none_of (df1 df2 : Table) (h : "Литера_clean" ∉ (df2p df2).cols) :
    pass4 df1 df2 = none := by
  unfold pass4
  rw [if_neg]
  intro hlen
  have he := (pass4_forces df1 df2 hlen).1
  have hmem : "Литера_clean" ∈ pass4Cols df1 df2 := by
    rw [he]
    simp
  unfold pass4Cols at hmem
  have hp := (List.mem_filter.mp hmem).2
  rw [Bool.and_eq_true] at hp
  exact h ((contains_iff_mem _ _).mp hp.2)

theorem pass1Cols_streethouse (df1 df2 : Table)
    (hu1 : "Улица" ∈ df1.cols) (hu2 : "Улица" ∈ df2.cols)
    (hd1 : "Дом" ∈ df1.cols) (hd2 : "Дом" ∈ df2.cols)
    (hk : "Корпус_clean" ∉ (df2p df2).cols) (hl : "Литера_clean" ∉ (df2p df2).cols) :
    pass1Cols df1 df2 = ["Улица_clean", "Дом_clean"] := by
  unfold pass1Cols
  have he : cleanFour = ["Улица_clean", "Дом_clean", "Корпус_clean", "Литера_clean"] := rfl
  rw [he]
  have hA : ("Улица_clean" ∈ (df1p df1).cols ∧ "Улица_clean" ∈ (df2p df2).cols) :=
    ⟨uliClean_mem_withClean _ ((mem_addIdCol_iff _ _ _).mpr (Or.inl hu1)),
     uliClean_mem_withClean _ ((mem_addIdCol_iff _ _ _).mpr (Or.inl hu2))⟩
  have hB : ("Дом_clean" ∈ (df1p df1).cols ∧ "Дом_clean" ∈ (df2p df2).cols) :=
    ⟨domClean_mem_withClean _ ((mem_addIdCol_iff _ _ _).mpr (Or.inl hd1)),
     domClean_mem_withClean _ ((mem_addIdCol_iff _ _ _).mpr (Or.inl hd2))⟩
  have hC : ¬("Корпус_clean" ∈ (df1p df1).cols ∧ "Корпус_clean" ∈ (df2p df2).cols) :=
    fun hc => hk hc.2
  have hD : ¬("Литера_clean" ∈ (df1p df1).cols ∧ "Литера_clean" ∈ (df2p df2).cols) :=
    fun hc => hl hc.2
  simp [List.filter_cons, hA, hB, hC, hD]

theorem mem_coalesceCol_rel (t : Table) (col : String) (row : Row)
    (h : row ∈ (coalesceCol t col).rows) :
    ∃ r0 ∈ t.rows, ∀ c, c ≠ col → getVal row c = getVal r0 c := by
  simp only [coalesceCol] at h
  split_ifs at h with h1 h2 h3
  · obtain ⟨r0, hr0, heq⟩ := (mem_setColF_rows _ _ _ _).mp h
    exact ⟨r0, hr0, fun c hc => by rw [heq, getVal_setVal_ne _ _ _ _ hc]⟩
  · obtain ⟨r0, hr0, heq⟩ := (mem_setColF_rows _ _ _ _).mp h
    exact ⟨r0, hr0, fun c hc => by rw [heq, getVal_setVal_ne _ _ _ _ hc]⟩
  · obtain ⟨r0, hr0, heq⟩ := (mem_setColF_rows _ _ _ _).mp h
    exact ⟨r0, hr0, fun c hc => by rw [heq, getVal_setVal_ne _ _ _ _ hc]⟩
  · exact ⟨row, h, fun c _ => rfl⟩

theorem mem_coalesceCol_cols (t : Table) (col c : String) (hc : c ≠ col) :
    c ∈ (coalesceCol t col).cols ↔ c ∈ t.cols := by
  simp only [coalesceCol]
  split_ifs with h1 h2 h3
  · rw [mem_setColF_cols_iff]
    constructor
    · rintro (h | h)
      · exact h
      · exact absurd h hc
    · exact Or.inl
  · rw [mem_setColF_cols_iff]
    constructor
    · rintro (h | h)
      · exact h
      · exact absurd h hc
    · exact Or.inl
  · rw [mem_setColF_cols_iff]
    constructor
    · rintro (h | h)
      · exact h
      · exact absurd h hc
    · exact Or.inl
  · exact Iff.rfl

theorem coalesceCol_value (t : Table) (col : String)
    (hcw : (col ++ "_citywalls") ∈ t.cols) (hod : (col ++ "_opendata") ∈ t.cols)
    (row : Row) (h : row ∈ (coalesceCol t col).rows) :
    ∃ r0 ∈ t.rows,
      (∀ c, c ≠ col → getVal row c = getVal r0 c) ∧
      getVal row col = (if getVal r0 (col ++ "_citywalls") = vNull
        then getVal r0 (col ++ "_opendata") else getVal r0 (col ++ "_citywalls")) := by
  simp only [coalesceCol] at h
  rw [if_pos (by rw [Bool.and_eq_true]; exact ⟨(contains_iff_mem _ _).mpr hcw,
    (contains_iff_mem _ _).mpr hod⟩)] at h
  obtain ⟨r0, hr0, heq⟩ := (mem_setColF_rows _ _ _ _).mp h
  refine ⟨r0, hr0, fun c hc => by rw [heq, getVal_setVal_ne _ _ _ _ hc], ?_⟩
  rw [heq, getVal_setVal_self]

theorem final_row_rel (df1 df2 : Table) (row : Row)
    (h : row ∈ (merge_address_datasets df1 df2).rows) :
    ∃ r2 ∈ (coalesceAll (concatTables (merge_results df1 df2))).rows,
      ∀ c, colsToDrop.contains c = false → c ≠ "normalized_address" →
        getVal row c = getVal r2 c := by
  unfold merge_address_datasets at h
  by_cases hmr : merge_results df1 df2 = []
  · rw [if_pos hmr] at h
    exact absurd h (by simp)
  · rw [if_neg hmr] at h
    obtain ⟨r1, hr1, heq1⟩ := (mem_dropTheCols _ _ _).mp h
    obtain ⟨r2, hr2, heq2⟩ := (mem_setColF_rows _ _ _ _).mp hr1
    refine ⟨r2, hr2, fun c hdrop hna => ?_⟩
    rw [heq1, getVal_filter_not_dropped _ _ _ hdrop, heq2, getVal_setVal_ne _ _ _ _ hna]

theorem coalesceAll_ulitsa (T : Table) (hcw : "Улица_citywalls" ∈ T.cols)
    (hod : "Улица_opendata" ∈ T.cols) (row : Row) (h : row ∈ (coalesceAll T).rows) :
    getVal row "Улица" = (if getVal row "Улица_citywalls" = vNull
      then getVal row "Улица_opendata" else getVal row "Улица_citywalls") := by
  unfold coalesceAll at h
  obtain ⟨r3, hr3, hrel4⟩ := mem_coalesceCol_rel _ "Литера" _ h
  obtain ⟨r4, hr4, hrel3⟩ := mem_coalesceCol_rel _ "Корпус" _ hr3
  obtain ⟨r5, hr5, hrel2⟩ := mem_coalesceCol_rel _ "Дом" _ hr4
  obtain ⟨r6, hr6, hpres, hval⟩ := coalesceCol_value _ "Улица" hcw hod _ hr5
  rw [hrel4 "Улица" (by decide), hrel3 "Улица" (by decide), hrel2 "Улица" (by decide), hval]
  rw [show getVal row "Улица_citywalls" = getVal r6 "Улица_citywalls" from by
    rw [hrel4 _ (by decide), hrel3 _ (by decide), hrel2 _ (by decide), hpres _ (by decide)]]
  rw [show getVal row "Улица_opendata" = getVal r6 "Улица_opendata" from by
    rw [hrel4 _ (by decide), hrel3 _ (by decide), hrel2 _ (by decide), hpres _ (by decide)]]
  exact rfl

theorem coalesceAll_dom (T : Table) (hcw : "Дом_citywalls" ∈ T.cols)
    (hod : "Дом_opendata" ∈ T.cols) (row : Row) (h : row ∈ (coalesceAll T).rows) :
    getVal row "Дом" = (if getVal row "Дом_citywalls" = vNull
      then getVal row "Дом_opendata" else getVal row "Дом_citywalls") := by
  unfold coalesceAll at h
  obtain ⟨r3, hr3, hrel4⟩ := mem_coalesceCol_rel _ "Литера" _ h
  obtain ⟨r4, hr4, hrel3⟩ := mem_coalesceCol_rel _ "Корпус" _ hr3
  have hcw' : "Дом_citywalls" ∈ (coalesceCol T "Улица").cols := by
    rw [mem_coalesceCol_cols _ _ _ (by decide)]
    exact hcw
  have hod' : "Дом_opendata" ∈ (coalesceCol T "Улица").cols := by
    rw [mem_coalesceCol_cols _ _ _ (by decide)]
    exact hod
  obtain ⟨r5, hr5, hpres, hval⟩ := coalesceCol_value _ "Дом" hcw' hod' _ hr4
  rw [hrel4 "Дом" (by decide), hrel3 "Дом" (by decide), hval]
  rw [show getVal row "Дом_citywalls" = getVal r5 "Дом_citywalls" from by
    rw [hrel4 _ (by decide), hrel3 _ (by decide), hpres _ (by decide)]]
  rw [show getVal row "Дом_opendata" = getVal r5 "Дом_opendata" from by
    rw [hrel4 _ (by decide), hrel3 _ (by decide), hpres _ (by decide)]]
  exact rfl

theorem coalesceAll_korpus (T : Table) (hcw : "Корпус_citywalls" ∈ T.cols)
    (hod : "Корпус_opendata" ∈ T.cols) (row : Row) (h : row ∈ (coalesceAll T).rows) :
    getVal row "Корпус" = (if getVal row "Корпус_citywalls" = vNull
      then getVal row "Корпус_opendata" else getVal row "Корпус_citywalls") := by
  unfold coalesceAll at h
  obtain ⟨r3, hr3, hrel4⟩ := mem_coalesceCol_rel _ "Литера" _ h
  have hcw' : "Корпус_citywalls" ∈ (coalesceCol (coalesceCol T "Улица") "Дом").cols := by
    rw [mem_coalesceCol_cols _ _ _ (by decide), mem_coalesceCol_cols _ _ _ (by decide)]
    exact hcw
  have hod' : "Корпус_opendata" ∈ (coalesceCol (coalesceCol T "Улица") "Дом").cols := by
    rw [mem_coalesceCol_cols _ _ _ (by decide), mem_coalesceCol_cols _ _ _ (by decide)]
    exact hod
  obtain ⟨r4, hr4, hpres, hval⟩ := coalesceCol_value _ "Корпус" hcw' hod' _ hr3
  rw [hrel4 "Корпус" (by decide), hval]
  rw [show getVal row "Корпус_citywalls" = getVal r4 "Корпус_citywalls" from by
    rw [hrel4 _ (by decide), hpres _ (by decide)]]
  rw [show getVal row "Корпус_opendata" = getVal r4 "Корпус_opendata" from by
    rw [hrel4 _ (by decide), hpres _ (by decide)]]
  exact rfl

theorem coalesceAll_litera (T : Table) (hcw : "Литера_citywalls" ∈ T.cols)
    (hod : "Литера_opendata" ∈ T.cols) (row : Row) (h : row ∈ (coalesceAll T).rows) :
    getVal row "Литера" = (if getVal row "Литера_citywalls" = vNull
      then getVal row "Литера_opendata" else getVal row "Литера_citywalls") := by
  unfold coalesceAll at h
  have hcw' : "Литера_citywalls" ∈
      (coalesceCol (coalesceCol (coalesceCol T "Улица") "Дом") "Корпус").cols := by
    rw [mem_coalesceCol_cols _ _ _ (by decide), mem_coalesceCol_cols _ _ _ (by decide),
      mem_coalesceCol_cols _ _ _ (by decide)]
    exact hcw
  have hod' : "Литера_opendata" ∈
      (coalesceCol (coalesceCol (coalesceCol T "Улица") "Дом") "Корпус").cols := by
    rw [mem_coalesceCol_cols _ _ _ (by decide), mem_coalesceCol_cols _ _ _ (by decide),
      mem_coalesceCol_cols _ _ _ (by decide)]
    exact hod
  obtain ⟨r0, hr0, hpres, hval⟩ := coalesceCol_value _ "Литера" hcw' hod' _ h
  rw [hval]
  rw [show getVal row "Литера_citywalls" = getVal r0 "Литера_citywalls" from
    hpres _ (by decide)]
  rw [show getVal row "Литера_opendata" = getVal r0 "Литера_opendata" from
    hpres _ (by decide)]
  exact rfl

theorem lowerChar_of_kept (c : Char) (h : isKeptChar c = true) : lowerChar c = c := by
  unfold isKeptChar at h
  simp only [Bool.or_eq_true, Bool.and_eq_true, decide_eq_true_eq] at h
  have hval : (0x430 ≤ c.toNat ∧ c.toNat ≤ 0x44F) ∨ (0x61 ≤ c.toNat ∧ c.toNat ≤ 0x7A)
      ∨ (0x30 ≤ c.toNat ∧ c.toNat ≤ 0x39) := by
    rcases h with (⟨h1, h2⟩ | ⟨h1, h2⟩) | ⟨h1, h2⟩
    · exact Or.inl ⟨by simpa [Char.le_def, Char.toNat, UInt32.le_def] using h1,
        by simpa [Char.le_def, Char.toNat, UInt32.le_def] using h2⟩
    · exact Or.inr (Or.inl ⟨by simpa [Char.le_def, Char.toNat, UInt32.le_def] using h1,
        by simpa [Char.le_def, Char.toNat, UInt32.le_def] using h2⟩)
    · exact Or.inr (Or.inr ⟨by simpa [Char.le_def, Char.toNat, UInt32.le_def] using h1,
        by simpa [Char.le_def, Char.toNat, UInt32.le_def] using h2⟩)
  have hne1 : ¬('A' ≤ c ∧ c ≤ 'Z') := by
    rintro ⟨ha, hb⟩
    have ha' : 0x41 ≤ c.toNat := by simpa [Char.le_def, Char.toNat, UInt32.le_def] using ha
    have hb' : c.toNat ≤ 0x5A := by simpa [Char.le_def, Char.toNat, UInt32.le_def] using hb
    rcases hval with ⟨h1, h2⟩ | ⟨h1, h2⟩ | ⟨h1, h2⟩ <;> omega
  have hne2 : ¬('А' ≤ c ∧ c ≤ 'Я') := by
    rintro ⟨ha, hb⟩
    have ha' : 0x410 ≤ c.toNat := by simpa [Char.le_def, Char.toNat, UInt32.le_def] using ha
    have hb' : c.toNat ≤ 0x42F := by simpa [Char.le_def, Char.toNat, UInt32.le_def] using hb
    rcases hval with ⟨h1, h2⟩ | ⟨h1, h2⟩ | ⟨h1, h2⟩ <;> omega
  have hne3 : ¬(c = 'Ё') := by
    intro he
    have h401 : c.toNat = 0x401 := by rw [he]; rfl
    rcases hval with ⟨h1, h2⟩ | ⟨h1, h2⟩ | ⟨h1, h2⟩ <;> omega
  unfold lowerChar
  rw [if_neg hne1, if_neg hne2, if_neg hne3]

theorem kept_not_whitespace (c : Char) (h : isKeptChar c = true) :
    c.isWhitespace = false := by
  cases hw : c.isWhitespace
  · rfl
  · exfalso
    have hOr : ((c = ' ' ∨ c = '\t') ∨ c = '\x0d') ∨ c = '\n' := by
      simpa [Char.isWhitespace] using hw
    rcases hOr with ((rfl | rfl) | rfl) | rfl <;> exact absurd h (by decide)

theorem dropWhile_all_false {α : Type} (p : α → Bool) (l : List α)
    (h : ∀ a ∈ l, p a = false) : l.dropWhile p = l := by
  cases l with
  | nil => rfl
  | cons a t =>
      rw [List.dropWhile_cons, if_neg]
      rw [h a (List.mem_cons_self a t)]
      simp

theorem trimChars_all_not_ws (l : List Char) (h : ∀ c ∈ l, c.isWhitespace = false) :
    trimChars l = l := by
  unfold trimChars
  rw [dropWhile_all_false _ _ h,
    dropWhile_all_false _ _ (fun c hc => h c (List.mem_reverse.mp hc)), List.reverse_reverse]

theorem normStr_chars_kept (s : String) (c : Char) (hc : c ∈ (normStr s).toList) :
    isKeptChar c = true := by
  unfold normStr at hc
  rw [show (String.mk ((trimChars (s.toList.map lowerChar)).filter isKeptChar)).toList
    = (trimChars (s.toList.map lowerChar)).filter isKeptChar from rfl] at hc
  exact List.of_mem_filter hc

theorem normStr_idem (s : String) : normStr (normStr s) = normStr s := by
  set n := normStr s with hn
  have hkept : ∀ c ∈ n.toList, isKeptChar c = true := by
    rw [hn]
    exact normStr_chars_kept s
  show normStr n = n
  unfold normStr
  rw [show n.toList.map lowerChar = n.toList from by
    rw [List.map_congr_left (fun c hc => lowerChar_of_kept c (hkept c hc))]
    exact List.map_id n.toList]
  rw [trimChars_all_not_ws _ (fun c hc => kept_not_whitespace c (hkept c hc))]
  rw [List.filter_eq_self.mpr hkept]
  cases n with
  | mk data => rfl

theorem mem_of_mem_dropWhile {α : Type} (p : α → Bool) (l : List α) (c : α)
    (h : c ∈ l.dropWhile p) : c ∈ l := by
  induction l with
  | nil => simp at h
  | cons a t ih =>
      rw [List.dropWhile_cons] at h
      by_cases hp : p a = true
      · rw [if_pos hp] at h
        exact List.mem_cons_of_mem a (ih h)
      · rw [if_neg hp] at h
        exact h

theorem mem_of_mem_trimChars (l : List Char) (c : Char) (h : c ∈ trimChars l) : c ∈ l := by
  unfold trimChars at h
  rw [List.mem_reverse] at h
  have h1 := mem_of_mem_dropWhile _ _ _ h
  rw [List.mem_reverse] at h1
  exact mem_of_mem_dropWhile _ _ _ h1

theorem dropWhile_idem {α : Type} (p : α → Bool) (l : List α) :
    (l.dropWhile p).dropWhile p = l.dropWhile p := by
  induction l with
  | nil => rfl
  | cons a t ih =>
      rw [List.dropWhile_cons]
      by_cases hp : p a = true
      · rw [if_pos hp]
        exact ih
      · rw [if_neg hp, List.dropWhile_cons, if_neg hp]

theorem dropWhile_head_false {α : Type} (p : α → Bool) (l : List α) :
    l.dropWhile p = [] ∨ ∃ a t, l.dropWhile p = a :: t ∧ p a = false := by
  induction l with
  | nil => exact Or.inl rfl
  | cons a t ih =>
      rw [List.dropWhile_cons]
      by_cases hp : p a = true
      · rw [if_pos hp]
        exact ih
      · rw [if_neg hp]
        refine Or.inr ⟨a, t, rfl, ?_⟩
        cases hpa : p a
        · rfl
        · exact absurd hpa hp

theorem exists_append_dropWhile {α : Type} (p : α → Bool) (l : List α) :
    ∃ u, u ++ l.dropWhile p = l := by
  induction l with
  | nil => exact ⟨[], rfl⟩
  | cons a t ih =>
      rw [List.dropWhile_cons]
      by_cases hp : p a = true
      · obtain ⟨u, hu⟩ := ih
        rw [if_pos hp]
        exact ⟨a :: u, by rw [List.cons_append, hu]⟩
      · rw [if_neg hp]
        exact ⟨[], rfl⟩

theorem trimChars_idem (l : List Char) : trimChars (trimChars l) = trimChars l := by
  unfold trimChars
  have hA : (l.dropWhile Char.isWhitespace).dropWhile Char.isWhitespace
      = l.dropWhile Char.isWhitespace := dropWhile_idem _ _
  have h1 : (((l.dropWhile Char.isWhitespace).reverse.dropWhile
      Char.isWhitespace).reverse).dropWhile Char.isWhitespace
      = ((l.dropWhile Char.isWhitespace).reverse.dropWhile Char.isWhitespace).reverse := by
    obtain ⟨u, hu⟩ := exists_append_dropWhile Char.isWhitespace
      (l.dropWhile Char.isWhitespace).reverse
    cases hBr : ((l.dropWhile Char.isWhitespace).reverse.dropWhile
        Char.isWhitespace).reverse with
    | nil => rfl
    | cons x xs =>
        have hArev : l.dropWhile Char.isWhitespace = x :: (xs ++ u.reverse) := by
          have hrr : l.dropWhile Char.isWhitespace
              = (u ++ (l.dropWhile Char.isWhitespace).reverse.dropWhile
                  Char.isWhitespace).reverse := by
            rw [hu, List.reverse_reverse]
          rw [hrr, List.reverse_append]
          rw [show ((l.dropWhile Char.isWhitespace).reverse.dropWhile
            Char.isWhitespace).reverse = x :: xs from hBr]
          rfl
        have hpx : x.isWhitespace = false := by
          rcases dropWhile_head_false Char.isWhitespace l with h0 | ⟨a, t, heq, hpa⟩
          · rw [h0] at hArev
            exact absurd hArev (by simp)
          · rw [heq] at hArev
            have hax : a = x := (List.cons.injEq a t x (xs ++ u.reverse) ▸ hArev).1
            rw [← hax]
            exact hpa
        rw [List.dropWhile_cons, if_neg (by rw [hpx]; simp)]
  rw [h1, List.reverse_reverse]
  rw [show ((l.dropWhile Char.isWhitespace).reverse.dropWhile
    Char.isWhitespace).dropWhile Char.isWhitespace
    = (l.dropWhile Char.isWhitespace).reverse.dropWhile Char.isWhitespace from
    dropWhile_idem _ _]

theorem splitAddr_no_split (cs : List Char) (h : hasSplitChar cs = false) :
    splitAddr cs = (cs, none) := by
  induction cs with
  | nil => rfl
  | cons c rest ih =>
      unfold hasSplitChar at h
      simp only [Bool.or_eq_false_iff] at h
      obtain ⟨⟨h1, h2⟩, h3⟩ := h
      simp only [splitAddr]
      rw [if_neg (by simpa using h1), if_neg (by simp [h2])]
      simp [ih h3]

theorem mem_splitAddr_snd (cs : List Char) :
    ∀ (a b : List Char), splitAddr cs = (a, some b) → ∀ c ∈ b, c ∈ cs := by
  induction cs with
  | nil =>
      intro a b h
      exact absurd h (by simp [splitAddr])
  | cons x rest ih =>
      intro a b h c hc
      simp only [splitAddr] at h
      by_cases h1 : x = ','
      · rw [if_pos h1] at h
        have hb := Option.some.inj (congrArg Prod.snd h)
        rw [← hb] at hc
        exact List.mem_cons_of_mem x (mem_of_mem_dropWhile _ _ _ hc)
      · rw [if_neg h1] at h
        by_cases h2 : (x.isWhitespace && isDigitHead ((x :: rest).dropWhile Char.isWhitespace))
            = true
        · rw [if_pos h2] at h
          have hb := Option.some.inj (congrArg Prod.snd h)
          rw [← hb] at hc
          exact mem_of_mem_dropWhile _ _ _ hc
        · rw [if_neg h2] at h
          have hsnd := congrArg Prod.snd h
          have hfst : splitAddr rest = ((splitAddr rest).1, some b) := by
            have : (splitAddr rest).2 = some b := hsnd
            rw [← this]
          exact List.mem_cons_of_mem x (ih _ _ hfst c hc)

theorem mem_of_dropLit (lit : List Char) :
    ∀ (cs rest : List Char), dropLit lit cs = some rest → ∀ c ∈ rest, c ∈ cs := by
  induction lit with
  | nil =>
      intro cs rest h c hc
      rw [show rest = cs from (Option.some.inj h).symm ▸ rfl] at hc
      exact hc
  | cons l ls ih =>
      intro cs rest h c hc
      cases cs with
      | nil => exact absurd h (by simp [dropLit])
      | cons x cs' =>
          simp only [dropLit] at h
          by_cases hx : x = l
          · rw [if_pos hx] at h
            exact List.mem_cons_of_mem x (ih cs' rest h c hc)
          · rw [if_neg hx] at h
            exact absurd h (by simp)

theorem mem_of_dropLitCI (lit : List Char) :
    ∀ (cs rest : List Char), dropLitCI lit cs = some rest → ∀ c ∈ rest, c ∈ cs := by
  induction lit with
  | nil =>
      intro cs rest h c hc
      rw [show rest = cs from (Option.some.inj h).symm ▸ rfl] at hc
      exact hc
  | cons l ls ih =>
      intro cs rest h c hc
      cases cs with
      | nil => exact absurd h (by simp [dropLitCI])
      | cons x cs' =>
          simp only [dropLitCI] at h
          by_cases hx : lowerChar x = l
          · rw [if_pos hx] at h
            exact List.mem_cons_of_mem x (ih cs' rest h c hc)
          · rw [if_neg hx] at h
            exact absurd h (by simp)

theorem takeHouseToken_none (t : List Char) (h : ∀ c ∈ t, c.isDigit = false) :
    takeHouseToken t = none := by
  unfold takeHouseToken
  cases t with
  | nil => simp [isDigitHead]
  | cons c rest =>
      rw [if_neg]
      intro hd
      have hcd : c.isDigit = true := by simpa [isDigitHead] using hd
      rw [h c (List.mem_cons_self c rest)] at hcd
      exact absurd hcd (by simp)

theorem houseMatch_none (cs : List Char) (h : ∀ c ∈ cs, c.isDigit = false) :
    houseMatch cs = none := by
  unfold houseMatch
  have e1 : (match dropLit "дом".toList cs with
      | some rest => takeHouseToken (rest.dropWhile Char.isWhitespace)
      | none => none) = none := by
    cases hd : dropLit "дом".toList cs with
    | none => rfl
    | some rest =>
        exact takeHouseToken_none _
          (fun c hc => h c (mem_of_dropLit _ _ _ hd c (mem_of_mem_dropWhile _ _ _ hc)))
  have e2 : (match dropLit "д.".toList cs with
      | some rest => takeHouseToken (rest.dropWhile Char.isWhitespace)
      | none => none) = none := by
    cases hd : dropLit "д.".toList cs with
    | none => rfl
    | some rest =>
        exact takeHouseToken_none _
          (fun c hc => h c (mem_of_dropLit _ _ _ hd c (mem_of_mem_dropWhile _ _ _ hc)))
  have e3 : takeHouseToken cs = none := takeHouseToken_none cs h
  rw [e1, e2, e3]
  rfl

theorem mem_of_cityAlt3 (cs rest : List Char) (hm : cityAlt3 cs = some rest) :
    ∀ c ∈ rest, c ∈ cs := by
  unfold cityAlt3 at hm
  split at hm
  · rename_i c' rest' heq
    split_ifs at hm with hw
    intro c hc
    have he := Option.some.inj hm
    rw [← he] at hc
    exact mem_of_dropLitCI _ _ _ heq c (mem_of_mem_dropWhile _ _ _ hc)
  · exact absurd hm (by simp)

theorem mem_of_cityAlt5 (cs rest : List Char) (hm : cityAlt5 cs = some rest) :
    ∀ c ∈ rest, c ∈ cs := by
  unfold cityAlt5 at hm
  split at hm
  · rename_i r5 heq5
    split at hm
    · rename_i r2 heq6
      intro c hc
      have he := Option.some.inj hm
      rw [← he] at hc
      have hcr2 : c ∈ r2 := mem_of_mem_dropWhile _ _ _ hc
      have hc5 : c ∈ r5 := by
        have hmem : c ∈ (',' :: r2) := List.mem_cons_of_mem _ hcr2
        rw [← heq6] at hmem
        exact mem_of_mem_dropWhile _ _ _ hmem
      exact mem_of_mem_dropWhile _ _ _ (mem_of_dropLitCI _ _ _ heq5 c hc5)
    · exact absurd hm (by simp)
  · exact absurd hm (by simp)

theorem mem_of_stripCityPref (cs : List Char) (c : Char) (hc : c ∈ stripCityPref cs) :
    c ∈ cs := by
  unfold stripCityPref at hc
  cases hm : matchCityPref cs with
  | none =>
      rw [hm] at hc
      exact hc
  | some rest =>
      rw [hm] at hc
      unfold matchCityPref at hm
      cases h1 : dropLitCI "г.".toList cs with
      | some r1 =>
          rw [h1] at hm
          have he : r1 = rest := Option.some.inj hm
          exact mem_of_dropLitCI _ _ _ h1 c (he ▸ hc)
      | none =>
      rw [h1] at hm
      simp only [Option.none_orElse] at hm
      cases h2 : dropLitCI "город".toList cs with
      | some r2 =>
          rw [h2] at hm
          have he : r2 = rest := Option.some.inj (by simpa using hm)
          exact mem_of_dropLitCI _ _ _ h2 c (he ▸ hc)
      | none =>
      rw [h2] at hm
      simp only [Option.none_orElse] at hm
      cases h3 : cityAlt3 cs with
      | some r3 =>
          rw [h3] at hm
          have he : r3 = rest := Option.some.inj (by simpa using hm)
          exact mem_of_cityAlt3 cs rest (he ▸ h3) c hc
      | none =>
      rw [h3] at hm
      simp only [Option.none_orElse] at hm
      cases h4 : dropLitCI "санкт-петербург,".toList cs with
      | some r4 =>
          rw [h4] at hm
          have he : r4.dropWhile Char.isWhitespace = rest :=
            Option.some.inj (by simpa using hm)
          exact mem_of_dropLitCI _ _ _ h4 c (mem_of_mem_dropWhile _ _ _ (he ▸ hc))
      | none =>
      rw [h4] at hm
      simp only [Option.map_none', Option.none_orElse] at hm
      cases h5 : cityAlt5 cs with
      | some r5 =>
          rw [h5] at hm
          have he : r5 = rest := Option.some.inj (by simpa using hm)
          exact mem_of_cityAlt5 cs rest (he ▸ h5) c hc
      | none =>
      rw [h5] at hm
      simp only [Option.none_orElse] at hm
      cases h7 : dropLitCI "нп в составе спб".toList cs with
      | some r7 =>
          rw [h7] at hm
          have he : r7.dropWhile Char.isWhitespace = rest :=
            Option.some.inj (by simpa using hm)
          exact mem_of_dropLitCI _ _ _ h7 c (mem_of_mem_dropWhile _ _ _ (he ▸ hc))
      | none =>
          rw [h7] at hm
          exact absurd hm (by simp)

theorem extractCore_no_split (cs : List Char) (h : hasSplitChar cs = false) :
    extractCore cs =
      { street := String.mk (trimChars cs), house := "", corpus := "", liter := "" } := by
  unfold extractCore
  rw [splitAddr_no_split cs h]

theorem extractCore_house_no_digit (cs : List Char) (h : ∀ c ∈ cs, c.isDigit = false) :
    (extractCore cs).house = "" := by
  unfold extractCore
  cases hsp : splitAddr cs with
  | mk a osnd =>
      cases osnd with
      | none => rfl
      | some hp0 =>
          have hsub : ∀ c ∈ trimChars hp0, c.isDigit = false := fun c hc =>
            h c (mem_splitAddr_snd cs a hp0 hsp c (mem_of_mem_trimChars _ _ hc))
          show (match houseMatch (trimChars hp0) with
            | some h => String.mk (trimChars h)
            | none => "") = ""
          rw [houseMatch_none _ hsub]

theorem extract_cw_no_split (s : String) (h : hasSplitChar (trimChars s.toList) = false) :
    extract_address_components false (vStr s) =
      { street := String.mk (trimChars s.toList), house := "", corpus := "", liter := "" } := by
  by_cases hs : s = ""
  · subst hs
    rfl
  · show (if s = "" then emptyComponents else extractCore (trimChars s.toList)) = _
    rw [if_neg hs, extractCore_no_split _ h, trimChars_idem]

theorem extract_od_no_split (s : String)
    (h : hasSplitChar (trimChars (stripCityPref (trimChars s.toList))) = false) :
    extract_address_components true (vStr s) =
      { street := String.mk (trimChars (stripCityPref (trimChars s.toList))),
        house := "", corpus := "", liter := "" } := by
  by_cases hs : s = ""
  · subst hs
    rfl
  · show (if s = "" then emptyComponents
      else extractCore (trimChars (stripCityPref (trimChars s.toList)))) = _
    rw [if_neg hs, extractCore_no_split _ h, trimChars_idem]

theorem extract_cw_house_no_digit (s : String) (h : ∀ c ∈ s.toList, c.isDigit = false) :
    (extract_address_components false (vStr s)).house = "" := by
  by_cases hs : s = ""
  · subst hs
    rfl
  · show ((if s = "" then emptyComponents else extractCore (trimChars s.toList))).house = ""
    rw [if_neg hs]
    exact extractCore_house_no_digit _ (fun c hc => h c (mem_of_mem_trimChars _ _ hc))

theorem extract_od_house_no_digit (s : String) (h : ∀ c ∈ s.toList, c.isDigit = false) :
    (extract_address_components true (vStr s)).house = "" := by
  by_cases hs : s = ""
  · subst hs
    rfl
  · show ((if s = "" then emptyComponents
      else extractCore (trimChars (stripCityPref (trimChars s.toList))))).house = ""
    rw [if_neg hs]
    exact extractCore_house_no_digit _ (fun c hc =>
      h c (mem_of_mem_trimChars _ _ (mem_of_stripCityPref _ _
        (mem_of_mem_trimChars _ _ hc))))

theorem rem1After4_cols (df1 df2 : Table) : (rem1After4 df1 df2).cols = (df1p df1).cols := by
  unfold rem1After4
  cases h : pass4 df1 df2 <;> simp [filterNotIn, rem1After3_cols]

theorem rem2After4_cols (df1 df2 : Table) : (rem2After4 df1 df2).cols = (df2p df2).cols := by
  unfold rem2After4
  cases h : pass4 df1 df2 <;> simp [filterNotIn, rem2After3_cols]

theorem cols_mono_placeholderFold (other : List String) (osuf : String) :
    ∀ (t : Table) (c : String), c ∈ t.cols →
      c ∈ (other.foldl (fun t' c' =>
        if endsWithSuf c' osuf && !(t'.cols.contains c') then setColF t' c' (fun _ => vNull)
        else t') t).cols := by
  induction other with
  | nil =>
      intro t c h
      exact h
  | cons x xs ih =>
      intro t c h
      rw [List.foldl_cons]
      apply ih
      by_cases hc : (endsWithSuf x osuf && !(t.cols.contains x)) = true
      · rw [if_pos hc]
        exact (mem_setColF_cols_iff _ _ _ _).mpr (Or.inl h)
      · rw [if_neg hc]
        exact h

theorem mem_df1_only_cols (df1 df2 : Table) (f : String)
    (hne : ¬((rem1After4 df1 df2).rows.isEmpty || (rem1After4 df1 df2).cols.isEmpty) = true)
    (hf : f ∈ (df1p df1).cols)
    (hid : f ≠ "id_1") (hcf : f ∉ cleanFour)
    (hs1 : endsWithSuf f "_citywalls" = false) (hs2 : endsWithSuf f "_opendata" = false) :
    (f ++ "_citywalls") ∈ (df1_only df1 df2).cols := by
  unfold df1_only prepare_unmerged_df
  rw [if_neg hne]
  apply (mem_setColF_cols_iff _ _ _ _).mpr
  apply Or.inl
  apply cols_mono_placeholderFold
  show (f ++ "_citywalls") ∈ (rem1After4 df1 df2).cols.map (renField "id_1" "_citywalls")
  apply List.mem_map.mpr
  refine ⟨f, ?_, ?_⟩
  · rw [rem1After4_cols]
    exact hf
  · unfold renField
    rw [if_neg (by simp [hid, hcf, hs1, hs2])]

theorem mem_merge_and_track_cols_both (left right : Table) (onCols : List String) (nm f : String)
    (hfL : f ∈ left.cols) (hfR : f ∈ right.cols) (hfOn : f ∉ onCols) :
    (f ++ "_citywalls") ∈ (merge_and_track left right onCols nm).tbl.cols ∧
    (f ++ "_opendata") ∈ (merge_and_track left right onCols nm).tbl.cols := by
  unfold merge_and_track
  constructor
  · apply (mem_addColName_iff _ _ _).mpr
    apply Or.inl
    unfold mergedCols
    apply List.mem_append.mpr
    apply Or.inl
    apply List.mem_map.mpr
    refine ⟨f, hfL, ?_⟩
    unfold sufName
    rw [if_neg (by simpa using hfOn), if_pos ((contains_iff_mem _ _).mpr hfR)]
  · apply (mem_addColName_iff _ _ _).mpr
    apply Or.inl
    unfold mergedCols
    apply List.mem_append.mpr
    apply Or.inr
    apply List.mem_map.mpr
    refine ⟨f, ?_, ?_⟩
    · rw [List.mem_filter]
      exact ⟨hfR, by simp [hfOn]⟩
    · unfold sufName
      rw [if_neg (by simpa using hfOn), if_pos ((contains_iff_mem _ _).mpr hfL)]

/-- Claim C1, counterexample: with one Source-A record and two key-identical
Source-B records, pass 1 emits two Linked Pairs both containing Source-A
identifier 0, so an identifier can appear in more than one Linked Pair within
a single pass, contrary to the claim's "at most one Linked Pair". -/
theorem C1_counterexample :
    stepIds1 (pass1 tblC1A tblC1B) = [vNat 0, vNat 0] ∧
    ¬((stepRows (pass1 tblC1A tblC1B)).countP
        (fun r => getVal r "id_1" == vNat 0) ≤ 1) := by
  decide

/-- Claim C1, amended: every Source-A identifier is claimed by at most one pass
(the identifier sets of later passes exclude every earlier pass's set) and
appears in exactly one of {the matched identifiers of some pass, the Source-A
residual identifier set}; symmetrically for Source B. Within one pass an
identifier may appear in several Linked Pairs when several records on the other
side share its normalized key. -/
theorem C1_amended (df1 df2 : Table) (hg : GoodInput df1 df2) :
    (∀ i, i < df1.rows.length →
      (vNat i ∈ matchedIds1 df1 df2 ∧ vNat i ∉ residualIds1 df1 df2) ∨
      (vNat i ∉ matchedIds1 df1 df2 ∧ vNat i ∈ residualIds1 df1 df2)) ∧
    (∀ i, i < df2.rows.length →
      (vNat i ∈ matchedIds2 df1 df2 ∧ vNat i ∉ residualIds2 df1 df2) ∨
      (vNat i ∉ matchedIds2 df1 df2 ∧ vNat i ∈ residualIds2 df1 df2)) ∧
    (∀ x ∈ stepIds1 (pass2 df1 df2), x ∉ stepIds1 (pass1 df1 df2)) ∧
    (∀ x ∈ stepIds1 (pass3 df1 df2),
      x ∉ stepIds1 (pass1 df1 df2) ∧ x ∉ stepIds1 (pass2 df1 df2)) ∧
    (∀ x ∈ stepIds1 (pass4 df1 df2), x ∉ stepIds1 (pass1 df1 df2) ∧
      x ∉ stepIds1 (pass2 df1 df2) ∧ x ∉ stepIds1 (pass3 df1 df2)) ∧
    (∀ x ∈ stepIds2 (pass2 df1 df2), x ∉ stepIds2 (pass1 df1 df2)) ∧
    (∀ x ∈ stepIds2 (pass3 df1 df2),
      x ∉ stepIds2 (pass1 df1 df2) ∧ x ∉ stepIds2 (pass2 df1 df2)) ∧
    (∀ x ∈ stepIds2 (pass4 df1 df2), x ∉ stepIds2 (pass1 df1 df2) ∧
      x ∉ stepIds2 (pass2 df1 df2) ∧ x ∉ stepIds2 (pass3 df1 df2)) :=
  ⟨fun i hi => partition_side1 df1 df2 i hi,
   fun i hi => partition_side2 df1 df2 i hi,
   fun x hx => pass2_ids1_excl df1 df2 hg x hx,
   fun x hx => pass3_ids1_excl df1 df2 hg x hx,
   fun x hx => pass4_ids1_excl df1 df2 hg x hx,
   fun x hx => pass2_ids2_excl df1 df2 hg x hx,
   fun x hx => pass3_ids2_excl df1 df2 hg x hx,
   fun x hx => pass4_ids2_excl df1 df2 hg x hx⟩

/-- Witness for the amended C1 at the two-row input. -/
theorem C1_amended_witness :
    GoodInput tblC1A tblC1B ∧
    ((vNat 0 ∈ matchedIds1 tblC1A tblC1B ∧ vNat 0 ∉ residualIds1 tblC1A tblC1B) ∨
      (vNat 0 ∉ matchedIds1 tblC1A tblC1B ∧ vNat 0 ∈ residualIds1 tblC1A tblC1B)) :=
  ⟨⟨by decide, by decide⟩,
   (C1_amended tblC1A tblC1B ⟨by decide, by decide⟩).1 0 (by decide)⟩

/-- Claim C2, counterexample: on Source A = [{Улица Ленина, Дом 5, Корпус 2}]
and Source B = [{Улица ленина, Дом 5}] with no corpus column in B, pass 1 is
not skipped — it runs joining on the available street and house keys, claims
the pair and tags it по_всем_полям; pass 2 matches nothing and the
by_street_house counter stays 0, contrary to the claimed street+house tag. -/
theorem C2_counterexample :
    (merge_address_datasets tblC2A tblC2B).rows.map (fun r => getVal r "merge_type")
      = [vStr "по_всем_полям"] ∧
    stepRows (pass2 tblC2A tblC2B) = [] ∧
    stepIds1 (pass1 tblC2A tblC2B) = [vNat 0] ∧
    (merge_stats tblC2A tblC2B).by_street_house = 0 ∧
    vStr "по_всем_полям" ≠ vStr "по_улице_и_дому" := by
  decide

/-- Claim C2, amended: passes 3 and 4 run only when every one of their key
components is present in both sources, but passes 1 and 2 run whenever at least
one of their components is present in both sources, joining on whichever of
their components are present; in the scenario pass 1 runs on street+house and
produces the match tagged по_всем_полям. -/
theorem C2_amended :
    (∀ df1 df2 : Table,
      (pass1 df1 df2 = none ↔ pass1Cols df1 df2 = []) ∧
      (pass2 df1 df2 = none ↔ pass2Cols df1 df2 = []) ∧
      (pass3 df1 df2 = none ↔ ¬2 < (pass3Cols df1 df2).length) ∧
      (pass4 df1 df2 = none ↔ ¬2 < (pass4Cols df1 df2).length) ∧
      (pass1 df1 df2 = none ∨ pass1 df1 df2 = some (merge_and_track (df1p df1) (df2p df2)
        (pass1Cols df1 df2) "по_всем_полям")) ∧
      (pass2 df1 df2 = none ∨ pass2 df1 df2 = some (merge_and_track (rem1After1 df1 df2)
        (rem2After1 df1 df2) (pass2Cols df1 df2) "по_улице_и_дому"))) ∧
    pass1Cols tblC2A tblC2B = ["Улица_clean", "Дом_clean"] ∧
    (merge_address_datasets tblC2A tblC2B).rows.map (fun r => getVal r "merge_type")
      = [vStr "по_всем_полям"] := by
  refine ⟨fun df1 df2 => ⟨?_, ?_, ?_, ?_, ?_, ?_⟩, by decide, by decide⟩
  · unfold pass1
    by_cases h : pass1Cols df1 df2 = []
    · rw [if_pos h]
      simp [h]
    · rw [if_neg h]
      simp [h]
  · unfold pass2
    by_cases h : pass2Cols df1 df2 = []
    · rw [if_pos h]
      simp [h]
    · rw [if_neg h]
      simp [h]
  · unfold pass3
    by_cases h : 2 < (pass3Cols df1 df2).length
    · rw [if_pos h]
      simp [h]
    · rw [if_neg h]
      simp [h]
  · unfold pass4
    by_cases h : 2 < (pass4Cols df1 df2).length
    · rw [if_pos h]
      simp [h]
    · rw [if_neg h]
      simp [h]
  · unfold pass1
    by_cases h : pass1Cols df1 df2 = []
    · rw [if_pos h]
      exact Or.inl rfl
    · rw [if_neg h]
      exact Or.inr rfl
  · unfold pass2
    by_cases h : pass2Cols df1 df2 = []
    · rw [if_pos h]
      exact Or.inl rfl
    · rw [if_neg h]
      exact Or.inr rfl

/-- Claim C3, counterexample: a row linked on street+house where Source A has
corpus "" and Source B has corpus "2" keeps the empty Source-A corpus — the
coalescing falls back only on null, not on the empty string, so the coalesced
corpus is "" rather than the claimed "2". -/
theorem C3_counterexample :
    (merge_address_datasets tblC3A tblC3B).rows.map
      (fun r => (getVal r "merge_type", getVal r "Корпус"))
      = [(vStr "по_улице_и_дому", vStr "")] ∧
    vStr "" ≠ vStr "2" := by
  decide

/-- Claim C3, amended: for every output row, each of the four coalesced address
fields equals the Source-A value whenever that value is non-null (an empty
string counts as present) and the Source-B value only when the Source-A value
is null; in the scenario the coalesced corpus is "". -/
theorem C3_amended :
    (∀ df1 df2 : Table, ∀ row ∈ (merge_address_datasets df1 df2).rows,
      ("Улица_citywalls" ∈ (concatTables (merge_results df1 df2)).cols →
        "Улица_opendata" ∈ (concatTables (merge_results df1 df2)).cols →
        getVal row "Улица" = (if getVal row "Улица_citywalls" = vNull
          then getVal row "Улица_opendata" else getVal row "Улица_citywalls")) ∧
      ("Дом_citywalls" ∈ (concatTables (merge_results df1 df2)).cols →
        "Дом_opendata" ∈ (concatTables (merge_results df1 df2)).cols →
        getVal row "Дом" = (if getVal row "Дом_citywalls" = vNull
          then getVal row "Дом_opendata" else getVal row "Дом_citywalls")) ∧
      ("Корпус_citywalls" ∈ (concatTables (merge_results df1 df2)).cols →
        "Корпус_opendata" ∈ (concatTables (merge_results df1 df2)).cols →
        getVal row "Корпус" = (if getVal row "Корпус_citywalls" = vNull
          then getVal row "Корпус_opendata" else getVal row "Корпус_citywalls")) ∧
      ("Литера_citywalls" ∈ (concatTables (merge_results df1 df2)).cols →
        "Литера_opendata" ∈ (concatTables (merge_results df1 df2)).cols →
        getVal row "Литера" = (if getVal row "Литера_citywalls" = vNull
          then getVal row "Литера_opendata" else getVal row "Литера_citywalls"))) ∧
    getVal c3row "Корпус" = vStr "" ∧ getVal c3row "Корпус_opendata" = vStr "2" := by
  refine ⟨fun df1 df2 row hrow => ?_, by decide, by decide⟩
  obtain ⟨r2, hr2, hrel⟩ := final_row_rel df1 df2 row hrow
  refine ⟨fun hcw hod => ?_, fun hcw hod => ?_, fun hcw hod => ?_, fun hcw hod => ?_⟩
  · rw [hrel "Улица" (by decide) (by decide), hrel "Улица_citywalls" (by decide) (by decide),
      hrel "Улица_opendata" (by decide) (by decide)]
    exact coalesceAll_ulitsa _ hcw hod r2 hr2
  · rw [hrel "Дом" (by decide) (by decide), hrel "Дом_citywalls" (by decide) (by decide),
      hrel "Дом_opendata" (by decide) (by decide)]
    exact coalesceAll_dom _ hcw hod r2 hr2
  · rw [hrel "Корпус" (by decide) (by decide), hrel "Корпус_citywalls" (by decide) (by decide),
      hrel "Корпус_opendata" (by decide) (by decide)]
    exact coalesceAll_korpus _ hcw hod r2 hr2
  · rw [hrel "Литера" (by decide) (by decide), hrel "Литера_citywalls" (by decide) (by decide),
      hrel "Литера_opendata" (by decide) (by decide)]
    exact coalesceAll_litera _ hcw hod r2 hr2

/-- Witness for the amended C3 at the scenario input. -/
theorem C3_amended_witness :
    getVal c3row "Корпус" = (if getVal c3row "Корпус_citywalls" = vNull
      then getVal c3row "Корпус_opendata" else getVal c3row "Корпус_citywalls") :=
  (C3_amended.1 tblC3A tblC3B c3row (by decide)).2.2.1 (by decide) (by decide)

/-- Claim C4, counterexample: the cleaning regex class [а-яa-z0-9] excludes ё,
so the letter ё is deleted by the normalization rather than kept as the claim
states. -/
theorem C4_counterexample :
    cleanVal (vStr "ё") = vStr "" ∧ normStr "ё" ≠ "ё" ∧ normStr "Ёлка-1" = "лка1" := by
  decide

/-- Claim C4, amended: the canonical comparison key maps null to the empty
string, lower-cases, strips, and then deletes every character outside the class
[а-яa-z0-9] — so letters such as ё, and any letter outside lower-case Cyrillic
а..я and Latin a..z, are deleted rather than kept; the normalization is a pure
function and is idempotent. -/
theorem C4_amended :
    cleanVal vNull = vStr "" ∧
    (∀ s : String, ∀ c ∈ (normStr s).toList, isKeptChar c = true) ∧
    (∀ s : String, 'ё' ∉ (normStr s).toList) ∧
    (∀ s : String, normStr (normStr s) = normStr s) ∧
    normStr "  Невский, 10А " = "невский10а" := by
  refine ⟨rfl, fun s c hc => normStr_chars_kept s c hc, fun s h => ?_,
    fun s => normStr_idem s, by decide⟩
  have hk := normStr_chars_kept s 'ё' h
  exact absurd hk (by decide)

/-- Witness for the amended C4 at a concrete character of a concrete key. -/
theorem C4_amended_witness :
    ('н' ∈ (normStr "Невский").toList) ∧ isKeptChar 'н' = true :=
  ⟨by decide, C4_amended.2.1 "Невский" 'н' (by decide)⟩

/-- Claim C5, counterexample: a structural failure loading the Source-A file
does not abort the run — the asset catches it, substitutes an empty frame and
returns normal output built from Source B alone. -/
theorem C5_counterexample :
    combined_buildings_data (LoadResult.failed "не удалось загрузить файл")
      (LoadResult.ok tblC5B) ≠ ({ cols := [], rows := [] } : Table) ∧
    (combined_buildings_data (LoadResult.failed "не удалось загрузить файл")
      (LoadResult.ok tblC5B)).rows.map (fun r => getVal r "merge_type")
      = [vStr "только_opendata"] ∧
    (combined_buildings_data (LoadResult.failed "не удалось загрузить файл")
      (LoadResult.ok tblC5B)).rows.map (fun r => getVal r "normalized_address")
      = [vStr "Садовая, 1"] := by
  decide

/-- Claim C5, amended: a structural load failure of either input is caught
inside the asset and behaves exactly as an empty table for that source (the
error is only logged); the run aborts for no input, and returns an empty frame
only when both sources end up empty. -/
theorem C5_amended :
    (∀ (e : String) (lb : LoadResult),
      combined_buildings_data (LoadResult.failed e) lb
        = combined_buildings_data (LoadResult.ok { cols := [], rows := [] }) lb) ∧
    (∀ (la : LoadResult) (e : String),
      combined_buildings_data la (LoadResult.failed e)
        = combined_buildings_data la (LoadResult.ok { cols := [], rows := [] })) ∧
    (∀ e1 e2 : String,
      combined_buildings_data (LoadResult.failed e1) (LoadResult.failed e2)
        = { cols := [], rows := [] }) :=
  ⟨fun _ _ => rfl, fun _ _ => rfl, fun _ _ => rfl⟩

/-- Claim C6, counterexample: the field Фото exists only in Source A; in the
pass-1 frame it keeps its unsuffixed name (the merge suffixes only overlapping
columns), while the residual frame namespaces it as Фото_citywalls — so the
namespaced name does not appear with the linked rows' values, and the unified
output carries the same field under two different column names. -/
theorem C6_counterexample :
    "Фото_citywalls" ∈ (df1_only tblC6A tblC6B).cols ∧
    "Фото_citywalls" ∉ stepCols (pass1 tblC6A tblC6B) ∧
    "Фото" ∈ stepCols (pass1 tblC6A tblC6B) ∧
    (merge_address_datasets tblC6A tblC6B).rows.map
      (fun r => (getVal r "merge_type", getVal r "Фото", getVal r "Фото_citywalls"))
      = [(vStr "по_всем_полям", vStr "x1", vNull),
         (vStr "только_citywalls", vNull, vStr "x2")] ∧
    "Фото" ∈ (merge_address_datasets tblC6A tblC6B).cols ∧
    "Фото_citywalls" ∈ (merge_address_datasets tblC6A tblC6B).cols := by
  decide

/-- Claim C6, amended: a field present in both input tables does appear under
its namespaced names in the pass frames and in the residual frames, but a
field present in only one source keeps its unsuffixed name in merged-pass rows
while being namespaced in residual rows, so the unified output can hold such a
field under two distinct column names (uniformity comes only from the
null-filling concatenation). -/
theorem C6_amended :
    (∀ (df1 df2 : Table) (f : String), f ∈ df1.cols → f ∈ df2.cols → f ∉ cleanFour →
      pass1 df1 df2 = none ∨ ∃ st, pass1 df1 df2 = some st ∧
        (f ++ "_citywalls") ∈ st.tbl.cols ∧ (f ++ "_opendata") ∈ st.tbl.cols) ∧
    (∀ (df1 df2 : Table) (f : String),
      ¬((rem1After4 df1 df2).rows.isEmpty || (rem1After4 df1 df2).cols.isEmpty) = true →
      f ∈ df1.cols → f ≠ "id_1" → f ∉ cleanFour →
      endsWithSuf f "_citywalls" = false → endsWithSuf f "_opendata" = false →
      (f ++ "_citywalls") ∈ (df1_only df1 df2).cols) ∧
    ("Фото" ∈ stepCols (pass1 tblC6A tblC6B) ∧
     "Фото_citywalls" ∉ stepCols (pass1 tblC6A tblC6B) ∧
     "Фото_citywalls" ∈ (df1_only tblC6A tblC6B).cols) := by
  refine ⟨fun df1 df2 f h1 h2 h3 => ?_, fun df1 df2 f hne h1 h2 h3 h4 h5 => ?_, by decide⟩
  · cases hp : pass1 df1 df2 with
    | none => exact Or.inl rfl
    | some st =>
        have hfL : f ∈ (df1p df1).cols :=
          mem_withClean_of _ _ ((mem_addIdCol_iff _ _ _).mpr (Or.inl h1))
        have hfR : f ∈ (df2p df2).cols :=
          mem_withClean_of _ _ ((mem_addIdCol_iff _ _ _).mpr (Or.inl h2))
        have hfOn : f ∉ pass1Cols df1 df2 := by
          intro hmem
          unfold pass1Cols at hmem
          exact h3 (List.mem_filter.mp hmem).1
        have hres := mem_merge_and_track_cols_both (df1p df1) (df2p df2)
          (pass1Cols df1 df2) "по_всем_полям" f hfL hfR hfOn
        refine Or.inr ⟨st, rfl, ?_, ?_⟩
        · rw [pass1_eq_some df1 df2 st hp]
          exact hres.1
        · rw [pass1_eq_some df1 df2 st hp]
          exact hres.2
  · exact mem_df1_only_cols df1 df2 f hne
      (mem_withClean_of _ _ ((mem_addIdCol_iff _ _ _).mpr (Or.inl h1))) h2 h3 h4 h5

/-- Witness for the amended C6 at the Фото scenario. -/
theorem C6_amended_witness :
    ("Улица" ∈ tblC6A.cols ∧ "Улица" ∈ tblC6B.cols) ∧
    (pass1 tblC6A tblC6B = none ∨ ∃ st, pass1 tblC6A tblC6B = some st ∧
      ("Улица" ++ "_citywalls") ∈ st.tbl.cols ∧ ("Улица" ++ "_opendata") ∈ st.tbl.cols) ∧
    ("Фото" ++ "_citywalls") ∈ (df1_only tblC6A tblC6B).cols :=
  ⟨⟨by decide, by decide⟩,
   C6_amended.1 tblC6A tblC6B "Улица" (by decide) (by decide) (by decide),
   C6_amended.2.1 tblC6A tblC6B "Фото" (by decide) (by decide) (by decide) (by decide)
     (by decide) (by decide)⟩

/-- Claim C7, counterexample: with Source B lacking corpus and liter columns,
passes 3 and 4 are indeed skipped, but the pass-3-eligible pair (it agrees on
street, house and would agree on corpus) does not fall to residual — pass 1
links it, and both residual sets are empty. -/
theorem C7_counterexample :
    pass3 tblC2A tblC2B = none ∧ pass4 tblC2A tblC2B = none ∧
    stepIds1 (pass1 tblC2A tblC2B) = [vNat 0] ∧
    residualIds1 tblC2A tblC2B = [] ∧ residualIds2 tblC2A tblC2B = [] ∧
    (merge_stats tblC2A tblC2B).citywalls_only = 0 ∧
    (merge_stats tblC2A tblC2B).opendata_only = 0 := by
  decide

/-- Claim C7, amended: when Source B has no corpus and no liter columns, passes
3 and 4 never execute; but a pair agreeing on the street and house keys is then
linked by pass 1 (which joins on exactly those columns) rather than falling to
the residual sets — only pairs disagreeing on street or house become
residual. -/
theorem C7_amended (df1 df2 : Table) (hg : GoodInput df1 df2)
    (hk1 : "Корпус" ∉ df2.cols) (hk2 : "Корпус_clean" ∉ df2.cols)
    (hl1 : "Литера" ∉ df2.cols) (hl2 : "Литера_clean" ∉ df2.cols)
    (hu1 : "Улица" ∈ df1.cols) (hu2 : "Улица" ∈ df2.cols)
    (hd1 : "Дом" ∈ df1.cols) (hd2 : "Дом" ∈ df2.cols) :
    pass3 df1 df2 = none ∧ pass4 df1 df2 = none ∧
    ∀ l r, l ∈ (df1p df1).rows → r ∈ (df2p df2).rows →
      getVal l "Улица_clean" = getVal r "Улица_clean" →
      getVal l "Дом_clean" = getVal r "Дом_clean" →
      getVal l "id_1" ∈ stepIds1 (pass1 df1 df2) ∧
      getVal r "id_2" ∈ stepIds2 (pass1 df1 df2) ∧
      l ∉ (rem1After4 df1 df2).rows ∧ r ∉ (rem2After4 df1 df2).rows := by
  have hkc := corpusClean_not_mem_df2p df2 hk1 hk2
  have hlc := literClean_not_mem_df2p df2 hl1 hl2
  have hcols := pass1Cols_streethouse df1 df2 hu1 hu2 hd1 hd2 hkc hlc
  refine ⟨pass3_none_of df1 df2 hkc, pass4_none_of df1 df2 hlc, ?_⟩
  intro l r hl hr he1 he2
  have hkey : keyAgree l r (pass1Cols df1 df2) = true := by
    rw [keyAgree_iff, hcols]
    intro c hc
    simp only [List.mem_cons, List.not_mem_nil, or_false] at hc
    rcases hc with rfl | rfl
    · exact he1
    · exact he2
  have hclaim := pass1_claims_pair df1 df2 hg (by rw [hcols]; decide) l r hl hr hkey
  refine ⟨hclaim.1, hclaim.2.1, ?_, ?_⟩
  · intro hmem
    have h4 := (mem_rem1After4 df1 df2 l).mp hmem
    have h3 := (mem_rem1After3 df1 df2 l).mp h4.1
    have h2 := (mem_rem1After2 df1 df2 l).mp h3.1
    exact hclaim.2.2.2.1 h2.1
  · intro hmem
    have h4 := (mem_rem2After4 df1 df2 r).mp hmem
    have h3 := (mem_rem2After3 df1 df2 r).mp h4.1
    have h2 := (mem_rem2After2 df1 df2 r).mp h3.1
    exact hclaim.2.2.2.2 h2.1

/-- Witness for the amended C7 at the scenario input. -/
theorem C7_amended_witness :
    GoodInput tblC2A tblC2B ∧ pass3 tblC2A tblC2B = none ∧
    (getVal c7l "id_1" ∈ stepIds1 (pass1 tblC2A tblC2B) ∧
     getVal c7r "id_2" ∈ stepIds2 (pass1 tblC2A tblC2B) ∧
     c7l ∉ (rem1After4 tblC2A tblC2B).rows ∧ c7r ∉ (rem2After4 tblC2A tblC2B).rows) :=
  ⟨⟨by decide, by decide⟩,
   (C7_amended tblC2A tblC2B ⟨by decide, by decide⟩ (by decide) (by decide) (by decide)
     (by decide) (by decide) (by decide) (by decide) (by decide)).1,
   (C7_amended tblC2A tblC2B ⟨by decide, by decide⟩ (by decide) (by decide) (by decide)
     (by decide) (by decide) (by decide) (by decide) (by decide)).2.2 c7l c7r
     (by decide) (by decide) (by decide) (by decide)⟩

/-- Claim C8: when all four address columns exist in both sources, a pair
agreeing on the full pass-1 key is emitted by pass 1 tagged по_всем_полям, both
of its identifiers are claimed by pass 1, both records are excluded from the
pass-2 candidate pools, and no later pass's identifier set can contain them:
once claimed, a record is never reconsidered by a weaker pass. -/
theorem C8_precedence (df1 df2 : Table) (hg : GoodInput df1 df2)
    (hu1 : "Улица" ∈ df1.cols) (hu2 : "Улица" ∈ df2.cols)
    (hd1 : "Дом" ∈ df1.cols) (hd2 : "Дом" ∈ df2.cols)
    (hk1 : "Корпус" ∈ df1.cols) (hk2 : "Корпус" ∈ df2.cols)
    (hl1 : "Литера" ∈ df1.cols) (hl2 : "Литера" ∈ df2.cols)
    (l r : Row) (hl : l ∈ (df1p df1).rows) (hr : r ∈ (df2p df2).rows)
    (hkey : keyAgree l r (pass1Cols df1 df2) = true) :
    pass1Cols df1 df2 = cleanFour ∧
    setVal (mergedRow (df1p df1).cols (df2p df2).cols (pass1Cols df1 df2) l r)
      "merge_type" (vStr "по_всем_полям") ∈ stepRows (pass1 df1 df2) ∧
    getVal (setVal (mergedRow (df1p df1).cols (df2p df2).cols (pass1Cols df1 df2) l r)
      "merge_type" (vStr "по_всем_полям")) "merge_type" = vStr "по_всем_полям" ∧
    getVal l "id_1" ∈ stepIds1 (pass1 df1 df2) ∧
    getVal r "id_2" ∈ stepIds2 (pass1 df1 df2) ∧
    l ∉ (rem1After1 df1 df2).rows ∧ r ∉ (rem2After1 df1 df2).rows ∧
    getVal l "id_1" ∉ stepIds1 (pass2 df1 df2) ∧
    getVal l "id_1" ∉ stepIds1 (pass3 df1 df2) ∧
    getVal l "id_1" ∉ stepIds1 (pass4 df1 df2) ∧
    getVal r "id_2" ∉ stepIds2 (pass2 df1 df2) ∧
    getVal r "id_2" ∉ stepIds2 (pass3 df1 df2) ∧
    getVal r "id_2" ∉ stepIds2 (pass4 df1 df2) := by
  have hcols := pass1Cols_all df1 df2 hu1 hu2 hd1 hd2 hk1 hk2 hl1 hl2
  have hrun : pass1Cols df1 df2 ≠ [] := by
    rw [hcols]
    decide
  have hclaim := pass1_claims_pair df1 df2 hg hrun l r hl hr hkey
  refine ⟨hcols, hclaim.2.2.1, getVal_setVal_self _ _ _, hclaim.1, hclaim.2.1,
    hclaim.2.2.2.1, hclaim.2.2.2.2, ?_, ?_, ?_, ?_, ?_, ?_⟩
  · intro hx
    exact pass2_ids1_excl df1 df2 hg _ hx hclaim.1
  · intro hx
    exact (pass3_ids1_excl df1 df2 hg _ hx).1 hclaim.1
  · intro hx
    exact (pass4_ids1_excl df1 df2 hg _ hx).1 hclaim.1
  · intro hx
    exact pass2_ids2_excl df1 df2 hg _ hx hclaim.2.1
  · intro hx
    exact (pass3_ids2_excl df1 df2 hg _ hx).1 hclaim.2.1
  · intro hx
    exact (pass4_ids2_excl df1 df2 hg _ hx).1 hclaim.2.1

/-- Witness for C8 at a one-pair all-columns input whose keys agree after
normalization. -/
theorem C8_precedence_witness :
    GoodInput tblC8A tblC8B ∧ keyAgree c8l c8r (pass1Cols tblC8A tblC8B) = true ∧
    getVal c8l "id_1" ∈ stepIds1 (pass1 tblC8A tblC8B) ∧
    c8l ∉ (rem1After1 tblC8A tblC8B).rows := by
  have h := C8_precedence tblC8A tblC8B ⟨by decide, by decide⟩ (by decide) (by decide)
    (by decide) (by decide) (by decide) (by decide) (by decide) (by decide) c8l c8r
    (by decide) (by decide) (by decide)
  exact ⟨⟨by decide, by decide⟩, by decide, h.2.2.2.1, h.2.2.2.2.2.1⟩

/-- Claim C9: the Address Parser returns all-empty components for a null or
falsy input; when the (prefix-stripped) text has no comma and no whitespace run
followed by a digit, the whole text becomes the street and house, corpus and
liter stay empty; and an input with no digits at all always yields house = "",
without any error. -/
theorem C9_parser_degenerate :
    (∀ b : Bool, extract_address_components b vNull = emptyComponents) ∧
    (∀ b : Bool, extract_address_components b (vStr "") = emptyComponents) ∧
    (∀ s : String, hasSplitChar (trimChars s.toList) = false →
      extract_address_components false (vStr s)
        = { street := String.mk (trimChars s.toList),
            house := "", corpus := "", liter := "" }) ∧
    (∀ s : String, hasSplitChar (trimChars (stripCityPref (trimChars s.toList))) = false →
      extract_address_components true (vStr s)
        = { street := String.mk (trimChars (stripCityPref (trimChars s.toList))),
            house := "", corpus := "", liter := "" }) ∧
    (∀ s : String, (∀ c ∈ s.toList, c.isDigit = false) →
      (extract_address_components false (vStr s)).house = ""
        ∧ (extract_address_components true (vStr s)).house = "") := by
  refine ⟨fun b => rfl, fun b => by simp [extract_address_components],
    fun s h => extract_cw_no_split s h, fun s h => extract_od_no_split s h,
    fun s h => ⟨extract_cw_house_no_digit s h, extract_od_house_no_digit s h⟩⟩

/-- Witness for C9 at concrete degenerate addresses. -/
theorem C9_parser_witness :
    hasSplitChar (trimChars ("Невский проспект" : String).toList) = false ∧
    extract_address_components false (vStr "Невский проспект")
      = { street := String.mk (trimChars ("Невский проспект" : String).toList),
          house := "", corpus := "", liter := "" } ∧
    (extract_address_components false (vStr "Улица, дом")).house = "" :=
  ⟨by decide, C9_parser_degenerate.2.2.1 "Невский проспект" (by decide),
   (C9_parser_degenerate.2.2.2.2 "Улица, дом" (by decide)).1⟩

/-- Claim C10: for every pair of well-formed inputs, passes 3 and 4 emit no
Linked Pairs — whenever they run, pass 2 has already claimed every pair that
agrees on the street and house keys, which any pass-3 or pass-4 key match must
also satisfy; consequently the by_corpus and by_liter counters are always 0
and no output row carries the tag по_улице_дому_корпусу or
по_улице_дому_литере. -/
theorem C10_passes34_empty (df1 df2 : Table) (hg : GoodInput df1 df2) :
    stepRows (pass3 df1 df2) = [] ∧ stepRows (pass4 df1 df2) = [] ∧
    stepIds1 (pass3 df1 df2) = [] ∧ stepIds1 (pass4 df1 df2) = [] ∧
    (merge_stats df1 df2).by_corpus = 0 ∧ (merge_stats df1 df2).by_liter = 0 ∧
    ∀ row ∈ (merge_address_datasets df1 df2).rows,
      getVal row "merge_type" ≠ vStr "по_улице_дому_корпусу" ∧
      getVal row "merge_type" ≠ vStr "по_улице_дому_литере" := by
  have h3 := pass3_step_nil df1 df2 hg
  have h4 := pass4_step_nil df1 df2 hg
  refine ⟨h3.1, h4.1, h3.2.1, h4.2.1, ?_, ?_, ?_⟩
  · show (stepIds1 (pass3 df1 df2)).dedup.length = 0
    rw [h3.2.1]
    rfl
  · show (stepIds1 (pass4 df1 df2)).dedup.length = 0
    rw [h4.2.1]
    rfl
  · intro row hrow
    obtain ⟨row0, hrow0, heq⟩ := final_tag_origin df1 df2 row hrow
    obtain ⟨t, ht, hmem⟩ := (mem_concat_rows _ _).mp hrow0
    have htags := merge_results_tags df1 df2 hg t ht row0 hmem
    rw [heq]
    rcases htags with h | h | h | h <;> rw [h] <;> exact ⟨by decide, by decide⟩

/-- Witness for C10 at the scenario input. -/
theorem C10_passes34_empty_witness :
    GoodInput tblC2A tblC2B ∧ stepRows (pass3 tblC2A tblC2B) = [] ∧
    (merge_stats tblC2A tblC2B).by_corpus = 0 := by
  have h := C10_passes34_empty tblC2A tblC2B ⟨by decide, by decide⟩
  exact ⟨⟨by decide, by decide⟩, h.1, h.2.2.2.2.1⟩

end BuildingsPipeline
